import Mathlib

set_option maxHeartbeats 2000000
set_option maxRecDepth 4096

/-!
Shallow embedding of the ESXi host-upgrade orchestration scripts
(`esxi_onbox_upgrade_v4.py` and the legacy `upgrade-script.py`).

Every shell command the scripts issue through `os.popen` is modelled by a
constructor of `Cmd`.  The host is an oracle `Nat → String` assigning a raw
text response to the n-th command issued; the run state `S` carries the
oracle, the count of commands issued so far, and the interaction trace
(command paired with the response it received).  Python exceptions that the
parsing code can raise (`IndexError` from `line.split("=")[1]` on a line
holding the key token but no `=`, `TypeError` from `None + str` in the
legacy script) are modelled with `Except`.  `sys.exit(n)` / falling off the
end of `main` are modelled by returning the process exit status.
-/

inductive Err where
  | indexError
  | typeError
deriving DecidableEq, Repr

/-- The command families issued by the scripts, one constructor per
`os.popen` call site's command template. -/
inductive Cmd where
  | pwd
  | ls (path : String)
  | enableSsh
  | enableAutostart
  | getAllVms
  | getGuest (vmid : String)
  | getSummary (vmid : String)
  | powerShutdown (vmid : String)
  | powerOff (vmid : String)
  | powerOn (vmid : String)
  | updateAutostartEntry (vmid : String) (seq : Nat)
  | mmSet (enable : Bool)
  | mmGet
  | profileUpdate (path : String)
  | reboot
deriving DecidableEq, Repr

/-- Run state: the response oracle, the number of commands issued so far,
and the interaction trace (command, response). -/
structure S where
  env : Nat → String
  k : Nat
  trace : List (Cmd × String)

def S.init (env : Nat → String) : S := ⟨env, 0, []⟩

/-- `sendcommand_onbox`: issue one command, obtain the oracle's response. -/
def sendcommand_onbox (c : Cmd) (s : S) : String × S :=
  (s.env s.k, ⟨s.env, s.k + 1, s.trace ++ [(c, s.env s.k)]⟩)

/-- `startsList sub s`: `sub` is an initial run of `s`. -/
def startsList : List Char → List Char → Bool
  | [], _ => true
  | _ :: _, [] => false
  | a :: as, b :: bs => a == b && startsList as bs

/-- `infixList sub s`: `sub` occurs contiguously inside `s`. -/
def infixList (sub : List Char) : List Char → Bool
  | [] => sub.isEmpty
  | b :: bs => startsList sub (b :: bs) || infixList sub bs

/-- Python's substring test `sub in s`. -/
def pyContains (s sub : String) : Bool := infixList sub.data s.data

/-- Split a character list at every occurrence of the separator character;
empty pieces are kept (Python's `str.split(sep)` with a one-character
separator, which is the only form the scripts use). -/
def splitCh (sep : Char) : List Char → List (List Char)
  | [] => [[]]
  | c :: rest =>
    if c = sep then [] :: splitCh sep rest
    else
      match splitCh sep rest with
      | [] => [[c]]
      | chunk :: chunks => (c :: chunk) :: chunks

def pySplit (sep : Char) (s : String) : List String :=
  (splitCh sep s.data).map String.mk

/-- Python's `str.strip()`: drop leading and trailing whitespace. -/
def trimList (s : List Char) : List Char :=
  ((s.dropWhile Char.isWhitespace).reverse.dropWhile Char.isWhitespace).reverse

def pyStrip (s : String) : String := String.mk (trimList s.data)

/-- Python's `str.rstrip()`: drop trailing whitespace. -/
def pyStripRight (s : String) : String :=
  String.mk ((s.data.reverse.dropWhile Char.isWhitespace).reverse)

/-- Python's `str.lower()` on the ASCII text the scripts compare. -/
def pyLower (s : String) : String := String.mk (s.data.map Char.toLower)

/-- Python's `str.replace(ch, '')`: remove every occurrence. -/
def removeCh (ch : Char) (s : String) : String :=
  String.mk (s.data.filter (fun c => ¬ c = ch))

/-- Python's `str.splitlines()` for newline-separated text: like
`split('\n')` but without a trailing empty line. -/
def pySplitlines (s : String) : List String :=
  let l := pySplit '\n' s
  if l.getLast? = some "" then l.dropLast else l

/-- The scripts' value cleanup: `.replace('"', '').replace(',', '').strip()`. -/
def stripVal (v : String) : String := pyStrip (removeCh ',' (removeCh '"' v))

/-- Parsing part of `check_vmware_tools_status`: first line holding
`toolsStatus`, split on `=`, take field 1, clean it.  `Except.error`
models the `IndexError` raised when the matching line has no `=`. -/
def check_vmware_tools_status_parse (output : String) : Except Err (Option String) :=
  match (pySplitlines output).find? (fun l => pyContains l "toolsStatus") with
  | none => Except.ok none
  | some line =>
    match (pySplit '=' line).get? 1 with
    | none => Except.error Err.indexError
    | some v => Except.ok (some (stripVal v))

def check_vmware_tools_status (vmid : String) (s : S) : Except Err (Option String × S) :=
  let (out, s1) := sendcommand_onbox (Cmd.getGuest vmid) s
  (check_vmware_tools_status_parse out).map (fun r => (r, s1))

/-- Parsing part of `getvmpowerstate_onbox`: first line holding
`powerState`; returns `"unknown"` when no line matches. -/
def getvmpowerstate_parse (resp : String) : Except Err String :=
  match (pySplit '\n' resp).find? (fun l => pyContains l "powerState") with
  | none => Except.ok "unknown"
  | some line =>
    match (pySplit '=' line).get? 1 with
    | none => Except.error Err.indexError
    | some v => Except.ok (stripVal v)

def getvmpowerstate_onbox (vmid : String) (s : S) : Except Err (String × S) :=
  let (out, s1) := sendcommand_onbox (Cmd.getSummary vmid) s
  (getvmpowerstate_parse out).map (fun r => (r, s1))

def poweroffvm_onbox (vmid : String) (s : S) : String × S :=
  sendcommand_onbox (Cmd.powerOff vmid) s

def SHUTDOWN_TIMEOUT_PER_VM : Nat := 10

/-- The polling loop of `graceful_shutdown_onbox`: up to `n` power-state
reads at 1-second intervals; succeeds on the first read other than
`poweredOn`. -/
def graceful_poll (vmid : String) : Nat → S → Except Err (Bool × S)
  | 0, s => Except.ok (false, s)
  | n + 1, s =>
    match getvmpowerstate_onbox vmid s with
    | Except.error e => Except.error e
    | Except.ok (ps, s1) =>
      if ps = "poweredOn" then graceful_poll vmid n s1
      else Except.ok (true, s1)

def graceful_shutdown_onbox (vmid : String) (s : S) : Except Err (Bool × S) :=
  let (_, s1) := sendcommand_onbox (Cmd.powerShutdown vmid) s
  graceful_poll vmid SHUTDOWN_TIMEOUT_PER_VM s1

/-- The condition `status and status.lower() in ("toolsok", "toolsold")`. -/
def toolsUsable (status : Option String) : Bool :=
  match status with
  | none => false
  | some st => st ≠ "" && (pyLower st = "toolsok" || pyLower st = "toolsold")

def shutdownvm_onbox (vmid : String) (s : S) : Except Err S :=
  match check_vmware_tools_status vmid s with
  | Except.error e => Except.error e
  | Except.ok (status, s1) =>
    if toolsUsable status then
      match graceful_shutdown_onbox vmid s1 with
      | Except.error e => Except.error e
      | Except.ok (ok, s2) =>
        if ok then Except.ok s2
        else Except.ok (poweroffvm_onbox vmid s2).2
    else
      Except.ok (poweroffvm_onbox vmid s1).2

/-- Python's `str.isdigit()` on the ASCII ids the script handles. -/
def isDigits (v : String) : Bool := v ≠ "" && v.data.all Char.isDigit

/-- Parsing part of `getvms_onbox`: one id per stripped line, digits only;
a Python dict keyed by the id keeps first insertion order and is
de-duplicated. -/
def getvms_parse (resp : String) : List String :=
  if pyStrip resp = "" then []
  else
    (pySplit '\n' (pyStrip resp)).foldl
      (fun acc line =>
        let vmid := pyStrip line
        if isDigits vmid && !acc.contains vmid then acc ++ [vmid] else acc) []

def getvms_onbox (s : S) : List String × S :=
  let (resp, s1) := sendcommand_onbox Cmd.getAllVms s
  (getvms_parse resp, s1)

def MAINTENANCE_MODE_TIMEOUT : Nat := 45

/-- The maintenance-mode status polling loop: up to `n` reads, succeeding
on the first response whose stripped lowercase form equals `target`. -/
def mmPoll (target : String) : Nat → S → Bool × S
  | 0, s => (false, s)
  | n + 1, s =>
    let (out, s1) := sendcommand_onbox Cmd.mmGet s
    if pyLower (pyStrip out) = target then (true, s1)
    else mmPoll target n s1

def maintenancemode_onbox (enable : Bool) (s : S) : Bool × S :=
  if enable then
    mmPoll "enabled" MAINTENANCE_MODE_TIMEOUT (sendcommand_onbox (Cmd.mmSet true) s).2
  else
    mmPoll "disabled" 5 (sendcommand_onbox (Cmd.mmSet false) s).2

def UPGRADE_FILENAME : String := "VMware-ESXi-8.0U3-24022510-depot.zip"

def upgradehost_onbox (fullPath : String) (s : S) : String × S :=
  sendcommand_onbox (Cmd.profileUpdate fullPath) s

def reboothost_onbox (s : S) : S := (sendcommand_onbox Cmd.reboot s).2

def poweron_onbox (vmid : String) (s : S) : S :=
  (sendcommand_onbox (Cmd.powerOn vmid) s).2

/-- Step 5 of `main`: per discovered VM, read the power state; if
`poweredOn`, register auto-start with the running sequence number and
quiesce it.  The list of identities observed `poweredOn` (the spec's
restore set) is returned as a ghost observation of the run; the source
keeps it implicit in the loop branch taken. -/
def quiesceLoop : List String → Nat → S → Except Err (List String × S)
  | [], _, s => Except.ok ([], s)
  | vmid :: rest, seq, s =>
    match getvmpowerstate_onbox vmid s with
    | Except.error e => Except.error e
    | Except.ok (ps, s1) =>
      if ps = "poweredOn" then
        let s2 := (sendcommand_onbox (Cmd.updateAutostartEntry vmid seq) s1).2
        match shutdownvm_onbox vmid s2 with
        | Except.error e => Except.error e
        | Except.ok s3 =>
          (quiesceLoop rest (seq + 1) s3).map (fun r => (vmid :: r.1, r.2))
      else
        quiesceLoop rest seq s1

/-- The two identical rollback loops of `main` (steps 6 and 8): per
discovered VM, re-read the power state and power on exactly when it reads
`poweredOff`. -/
def restoreLoop : List String → S → Except Err S
  | [], s => Except.ok s
  | vmid :: rest, s =>
    match getvmpowerstate_onbox vmid s with
    | Except.error e => Except.error e
    | Except.ok (ps, s1) =>
      if ps = "poweredOff" then restoreLoop rest (poweron_onbox vmid s1)
      else restoreLoop rest s1

/-- Result of a completed run of `main`: the process exit status, plus
ghost observations of the run (discovered ids, ids observed `poweredOn` at
discovery, the command counter at the moment the rollback loop started)
and the final state. -/
structure MainResult where
  exit : Nat
  vms : List String
  restore : List String
  kRollback : Option Nat
  s : S

def successMarker : String := "The update completed successfully"
def rebootRequiredMarker : String := "Reboot Required: true"

/-- Steps 5-9 of `main`: quiesce, enter maintenance mode, upgrade, decide,
then either reboot or re-power. -/
def mainCore (vms : List String) (fullPath : String) (s : S) : Except Err MainResult :=
  match quiesceLoop vms 1 s with
  | Except.error e => Except.error e
  | Except.ok (restore, s6) =>
    let (mmOk, s7) := maintenancemode_onbox true s6
    if mmOk then
      let (upgradeResp, s8) := upgradehost_onbox fullPath s7
      if pyContains upgradeResp successMarker && pyContains upgradeResp rebootRequiredMarker then
        let (_, s9) := maintenancemode_onbox false s8
        Except.ok ⟨0, vms, restore, none, reboothost_onbox s9⟩
      else
        let (_, s9) := maintenancemode_onbox false s8
        match restoreLoop vms s9 with
        | Except.error e => Except.error e
        | Except.ok s10 => Except.ok ⟨3, vms, restore, some s9.k, s10⟩
    else
      match restoreLoop vms s7 with
      | Except.error e => Except.error e
      | Except.ok s8 => Except.ok ⟨2, vms, restore, some s7.k, s8⟩

/-- `main` of `esxi_onbox_upgrade_v4.py` (named `main` in the source; Lean reserves that name for the entry point). -/
def main_v4 (s : S) : Except Err MainResult :=
  let (pwdOut, s1) := sendcommand_onbox Cmd.pwd s
  let remotepath := pyStrip pwdOut
  let (dirContents, s2) := sendcommand_onbox (Cmd.ls remotepath) s1
  if pyContains dirContents UPGRADE_FILENAME then
    let fullPath := remotepath ++ "/" ++ UPGRADE_FILENAME
    let s3 := (sendcommand_onbox Cmd.enableSsh s2).2
    let s4 := (sendcommand_onbox Cmd.enableAutostart s3).2
    let (vms, s5) := getvms_onbox s4
    mainCore vms fullPath s5
  else
    Except.ok ⟨1, [], [], none, s2⟩

/-! ## Trace observers -/

/-- Coarse classification of commands, ignoring their parameters (the
maintenance-mode enable and disable commands are distinguished). -/
inductive CmdKind where
  | pwd
  | ls
  | enableSsh
  | enableAutostart
  | getAllVms
  | getGuest
  | getSummary
  | powerShutdown
  | powerOff
  | powerOn
  | updateAutostart
  | mmEnable
  | mmDisable
  | mmGet
  | profileUpdate
  | reboot
deriving DecidableEq, Repr

def Cmd.kind : Cmd → CmdKind
  | Cmd.pwd => CmdKind.pwd
  | Cmd.ls _ => CmdKind.ls
  | Cmd.enableSsh => CmdKind.enableSsh
  | Cmd.enableAutostart => CmdKind.enableAutostart
  | Cmd.getAllVms => CmdKind.getAllVms
  | Cmd.getGuest _ => CmdKind.getGuest
  | Cmd.getSummary _ => CmdKind.getSummary
  | Cmd.powerShutdown _ => CmdKind.powerShutdown
  | Cmd.powerOff _ => CmdKind.powerOff
  | Cmd.powerOn _ => CmdKind.powerOn
  | Cmd.updateAutostartEntry _ _ => CmdKind.updateAutostart
  | Cmd.mmSet true => CmdKind.mmEnable
  | Cmd.mmSet false => CmdKind.mmDisable
  | Cmd.mmGet => CmdKind.mmGet
  | Cmd.profileUpdate _ => CmdKind.profileUpdate
  | Cmd.reboot => CmdKind.reboot

/-- The workloads issued a power-on command, in order. -/
def powerOns (tr : List (Cmd × String)) : List String :=
  tr.filterMap (fun e => match e.1 with | Cmd.powerOn v => some v | _ => none)

/-- The auto-start registrations issued: workload paired with the priority
value it was registered with, in order. -/
def autosOf (tr : List (Cmd × String)) : List (String × Nat) :=
  tr.filterMap (fun e =>
    match e.1 with | Cmd.updateAutostartEntry v n => some (v, n) | _ => none)

/-- Raw outputs of the upgrade commands issued. -/
def upgradeOutputs (tr : List (Cmd × String)) : List String :=
  tr.filterMap (fun e => match e.1 with | Cmd.profileUpdate _ => some e.2 | _ => none)

/-- Responses observed by the maintenance-mode status queries. -/
def mmReads (tr : List (Cmd × String)) : List String :=
  tr.filterMap (fun e => match e.1 with | Cmd.mmGet => some e.2 | _ => none)

def hasKind (tr : List (Cmd × String)) (kd : CmdKind) : Bool :=
  tr.any (fun e => e.1.kind == kd)

/-- Scan a trace left to right, checking each entry against its immediate
predecessor. -/
def scanPrev (P : Option (Cmd × String) → Cmd × String → Bool) :
    Option (Cmd × String) → List (Cmd × String) → Bool
  | _, [] => true
  | p, e :: rest => P p e && scanPrev P (some e) rest

/-- A power-on command must sit immediately after a power-state query of
the same workload whose response parsed to exactly `"poweredOff"`. -/
def freshOffBefore (p : Option (Cmd × String)) (e : Cmd × String) : Bool :=
  match e.1 with
  | Cmd.powerOn v =>
    (match p with
     | some (Cmd.getSummary w, out) =>
       v == w && (match getvmpowerstate_parse out with
                  | Except.ok ps => ps == "poweredOff"
                  | Except.error _ => false)
     | _ => false)
  | _ => true

def powerOnsJustified (tr : List (Cmd × String)) : Bool :=
  scanPrev freshOffBefore none tr

/-- A tools-status query (the first command of a quiesce) must sit
immediately after the auto-start registration of the same workload. -/
def registeredBefore (p : Option (Cmd × String)) (e : Cmd × String) : Bool :=
  match e.1 with
  | Cmd.getGuest v =>
    (match p with
     | some (Cmd.updateAutostartEntry w _, _) => v == w
     | _ => false)
  | _ => true

def autostartBeforeQuiesce (tr : List (Cmd × String)) : Bool :=
  scanPrev registeredBefore none tr

/-- The workloads the rollback loop powers on when run over `vms` with the
oracle positioned at command index `k`: those whose fresh power-state read
at that moment parses to exactly `"poweredOff"` (a parse error aborts the
loop; this mirrors `restoreLoop` decision for decision). -/
def restoreSelects (env : Nat → String) : List String → Nat → List String
  | [], _ => []
  | v :: rest, k =>
    match getvmpowerstate_parse (env k) with
    | Except.error _ => []
    | Except.ok ps =>
      if ps = "poweredOff" then v :: restoreSelects env rest (k + 2)
      else restoreSelects env rest (k + 1)

/-! ## The legacy script `upgrade-script.py` -/

def LEGACY_UPGRADE_FILENAME : String := "VMware-ESXi-7.0U2c-18426014-depot.zip"

/-- The apostrophe character the legacy script wraps paths in. -/
def QUOTE : Char := Char.ofNat 39

/-- Python's `int(v)` acceptance test (optional sign, decimal digits,
surrounding whitespace). -/
def pyIntOk (v : String) : Bool :=
  match trimList v.data with
  | [] => false
  | c :: rest =>
    ((c :: rest).all Char.isDigit) ||
      ((c = Char.ofNat 45 || c = Char.ofNat 43) && rest ≠ [] && rest.all Char.isDigit)

/-- Legacy `getvms_onbox`: empty response yields the sentinel `''`
(modelled `none`); otherwise ids are taken from the text before the first
`:` of each line, kept when `int()` accepts them, dict-deduplicated in
first-insertion order. -/
def legacy_getvms_parse (resp : String) : Option (List String) :=
  if resp = "" then none
  else some ((pySplit '\n' resp).foldl
    (fun acc line =>
      let vmid := (pySplit ':' line).headD ""
      if pyIntOk vmid && !acc.contains vmid then acc ++ [vmid] else acc) [])

/-- Legacy `getvmpowerstate_onbox`: falls off the function (returns
`None`) when no line holds `powerState`. -/
def legacy_getvmpowerstate_onbox (vm : String) (s : S) :
    Except Err (Option String × S) :=
  let (resp, s1) := sendcommand_onbox (Cmd.getSummary vm) s
  match (pySplit '\n' resp).find? (fun l => pyContains l "powerState") with
  | none => Except.ok (none, s1)
  | some line =>
    match (pySplit '=' line).get? 1 with
    | none => Except.error Err.indexError
    | some v => Except.ok (some (stripVal v), s1)

/-- The legacy powerstate-dictionary build: one state query per id. -/
def legacyPowerstates : List String → S → Except Err (List (String × Option String) × S)
  | [], s => Except.ok ([], s)
  | v :: rest, s =>
    match legacy_getvmpowerstate_onbox v s with
    | Except.error e => Except.error e
    | Except.ok (ps, s1) =>
      (legacyPowerstates rest s1).map (fun r => ((v, ps) :: r.1, r.2))

/-- The legacy power-down loop: auto-start registration then an immediate
forced power-off for each id whose recorded state is `poweredOn`. -/
def legacyQuiesce : List (String × Option String) → Nat → S → S
  | [], _, s => s
  | (v, ps) :: rest, seq, s =>
    if ps = some "poweredOn" then
      let s1 := (sendcommand_onbox (Cmd.updateAutostartEntry v seq) s).2
      legacyQuiesce rest (seq + 1) (sendcommand_onbox (Cmd.powerOff v) s1).2
    else legacyQuiesce rest seq s

/-- The legacy tail: maintenance mode on (no status polling), upgrade
(output ignored), maintenance mode off, reboot; the script then ends with
exit status 0. -/
def legacyTail (fullPath : String) (s : S) : Nat × S :=
  let s1 := (sendcommand_onbox (Cmd.mmSet true) s).2
  let s2 := (sendcommand_onbox (Cmd.profileUpdate fullPath) s1).2
  let s3 := (sendcommand_onbox (Cmd.mmSet false) s2).2
  (0, (sendcommand_onbox Cmd.reboot s3).2)

/-- Python's `v.rstrip("'")`: drop trailing apostrophes. -/
def pyRstripQ (v : String) : String :=
  String.mk ((v.data.reverse.dropWhile (fun c => c = QUOTE)).reverse)

/-- Python's `v.strip("'")`: drop leading and trailing apostrophes. -/
def pyStripQ (v : String) : String :=
  String.mk (((v.data.dropWhile (fun c => c = QUOTE)).reverse.dropWhile
    (fun c => c = QUOTE)).reverse)

/-- The legacy `__main__` from the SSH/auto-start step on (runs only when
the package file was found).  The `TypeError` arises from
`print(powerstate[i] + "\n")` when some power state is `None`. -/
def legacyCore (fullPath : String) (s : S) : Except Err (Nat × S) :=
  let s3 := (sendcommand_onbox Cmd.enableSsh s).2
  let s4 := (sendcommand_onbox Cmd.enableAutostart s3).2
  let (resp, s5) := sendcommand_onbox Cmd.getAllVms s4
  match legacy_getvms_parse resp with
  | none => Except.ok (legacyTail fullPath s5)
  | some vms =>
    match legacyPowerstates vms s5 with
    | Except.error e => Except.error e
    | Except.ok (pstates, s6) =>
      if pstates.any (fun p => p.2.isNone) then Except.error Err.typeError
      else Except.ok (legacyTail fullPath (legacyQuiesce pstates 1 s6))

/-- The legacy script's `__main__` block.  Note the not-found branch calls
`exit(0)`. -/
def legacyMain (s : S) : Except Err (Nat × S) :=
  let (pwdOut, s1) := sendcommand_onbox Cmd.pwd s
  let remotepathQ := String.singleton QUOTE ++ pyStripRight pwdOut ++ "/" ++ String.singleton QUOTE
  let (dirContents, s2) := sendcommand_onbox (Cmd.ls remotepathQ) s1
  if pyContains dirContents LEGACY_UPGRADE_FILENAME then
    let rp := pyStripQ (pyRstripQ remotepathQ)
    let fullPath := rp ++ LEGACY_UPGRADE_FILENAME
    legacyCore fullPath s2
  else
    Except.ok (0, s2)

/-! ## General lemmas about traces and scans -/

/-- Every command of the segment has one of the listed kinds. -/
def KindsIn (Δ : List (Cmd × String)) (ks : List CmdKind) : Prop :=
  ∀ e ∈ Δ, e.1.kind ∈ ks

lemma KindsIn.append {a b : List (Cmd × String)} {ks : List CmdKind}
    (ha : KindsIn a ks) (hb : KindsIn b ks) : KindsIn (a ++ b) ks := by
  intro e he
  rcases List.mem_append.mp he with h | h
  · exact ha e h
  · exact hb e h

lemma KindsIn.mono {a : List (Cmd × String)} {ks ks' : List CmdKind}
    (h : KindsIn a ks) (hsub : ∀ x ∈ ks, x ∈ ks') : KindsIn a ks' := by
  intro e he
  exact hsub _ (h e he)

lemma KindsIn.nil {ks : List CmdKind} : KindsIn [] ks := by
  intro e he
  cases he

lemma powerOns_append (a b : List (Cmd × String)) :
    powerOns (a ++ b) = powerOns a ++ powerOns b := by
  simp [powerOns]

lemma autosOf_append (a b : List (Cmd × String)) :
    autosOf (a ++ b) = autosOf a ++ autosOf b := by
  simp [autosOf]

lemma upgradeOutputs_append (a b : List (Cmd × String)) :
    upgradeOutputs (a ++ b) = upgradeOutputs a ++ upgradeOutputs b := by
  simp [upgradeOutputs]

lemma mmReads_append (a b : List (Cmd × String)) :
    mmReads (a ++ b) = mmReads a ++ mmReads b := by
  simp [mmReads]

lemma hasKind_append (a b : List (Cmd × String)) (kd : CmdKind) :
    hasKind (a ++ b) kd = (hasKind a kd || hasKind b kd) := by
  simp [hasKind]

lemma powerOns_eq_nil {Δ : List (Cmd × String)} {ks : List CmdKind}
    (h : KindsIn Δ ks) (hk : CmdKind.powerOn ∉ ks) : powerOns Δ = [] := by
  apply List.filterMap_eq_nil_iff.mpr
  intro e he
  have hke := h e he
  rcases e with ⟨c, o⟩
  cases c <;> simp_all [Cmd.kind]

lemma autosOf_eq_nil {Δ : List (Cmd × String)} {ks : List CmdKind}
    (h : KindsIn Δ ks) (hk : CmdKind.updateAutostart ∉ ks) : autosOf Δ = [] := by
  apply List.filterMap_eq_nil_iff.mpr
  intro e he
  have hke := h e he
  rcases e with ⟨c, o⟩
  cases c <;> simp_all [Cmd.kind]

lemma upgradeOutputs_eq_nil {Δ : List (Cmd × String)} {ks : List CmdKind}
    (h : KindsIn Δ ks) (hk : CmdKind.profileUpdate ∉ ks) : upgradeOutputs Δ = [] := by
  apply List.filterMap_eq_nil_iff.mpr
  intro e he
  have hke := h e he
  rcases e with ⟨c, o⟩
  cases c <;> simp_all [Cmd.kind]

lemma mmReads_eq_nil {Δ : List (Cmd × String)} {ks : List CmdKind}
    (h : KindsIn Δ ks) (hk : CmdKind.mmGet ∉ ks) : mmReads Δ = [] := by
  apply List.filterMap_eq_nil_iff.mpr
  intro e he
  have hke := h e he
  rcases e with ⟨c, o⟩
  cases c <;> simp_all [Cmd.kind]

lemma hasKind_eq_false {Δ : List (Cmd × String)} {ks : List CmdKind} {kd : CmdKind}
    (h : KindsIn Δ ks) (hk : kd ∉ ks) : hasKind Δ kd = false := by
  simp only [hasKind, List.any_eq_false]
  intro e he
  have hke := h e he
  simp only [beq_iff_eq]
  intro hc
  exact hk (hc ▸ hke)

/-- The element preceding a continuation after scanning `xs` from `p`. -/
def lastD (p : Option (Cmd × String)) : List (Cmd × String) → Option (Cmd × String)
  | [] => p
  | e :: rest => lastD (some e) rest

lemma scanPrev_append (P : Option (Cmd × String) → Cmd × String → Bool)
    (p : Option (Cmd × String)) (xs ys : List (Cmd × String)) :
    scanPrev P p (xs ++ ys) = (scanPrev P p xs && scanPrev P (lastD p xs) ys) := by
  induction xs generalizing p with
  | nil => simp [scanPrev, lastD]
  | cons e rest ih =>
    simp only [List.cons_append, scanPrev, Bool.and_assoc, List.append_eq]
    rw [ih (some e)]
    rfl

lemma scanPrev_of_all (P : Option (Cmd × String) → Cmd × String → Bool)
    (Δ : List (Cmd × String)) (h : ∀ e ∈ Δ, ∀ p, P p e = true) :
    ∀ p, scanPrev P p Δ = true := by
  induction Δ with
  | nil => intro p; rfl
  | cons e rest ih =>
    intro p
    simp only [scanPrev, Bool.and_eq_true]
    exact ⟨h e (List.mem_cons_self e rest) p,
      ih (fun x hx q => h x (List.mem_cons_of_mem e hx) q) (some e)⟩

lemma freshOffBefore_of_kinds {Δ : List (Cmd × String)} {ks : List CmdKind}
    (h : KindsIn Δ ks) (hk : CmdKind.powerOn ∉ ks) :
    ∀ p, scanPrev freshOffBefore p Δ = true := by
  apply scanPrev_of_all
  intro e he p
  have hke := h e he
  rcases e with ⟨c, o⟩
  cases c <;> simp_all [Cmd.kind, freshOffBefore]

lemma registeredBefore_of_kinds {Δ : List (Cmd × String)} {ks : List CmdKind}
    (h : KindsIn Δ ks) (hk : CmdKind.getGuest ∉ ks) :
    ∀ p, scanPrev registeredBefore p Δ = true := by
  apply scanPrev_of_all
  intro e he p
  have hke := h e he
  rcases e with ⟨c, o⟩
  cases c <;> simp_all [Cmd.kind, registeredBefore]

/-! ## Runs of the polling loops -/

lemma graceful_poll_run (vmid : String) :
    ∀ (n : Nat) (s : S) (b : Bool) (s' : S),
      graceful_poll vmid n s = Except.ok (b, s') →
      ∃ m, m ≤ n ∧ s'.env = s.env ∧ s'.k = s.k + m ∧
        s'.trace = s.trace ++
          (List.range m).map (fun i => (Cmd.getSummary vmid, s.env (s.k + i))) ∧
        (∀ i, i + 1 < m → getvmpowerstate_parse (s.env (s.k + i)) = Except.ok "poweredOn") ∧
        (b = true → 1 ≤ m ∧ ∃ ps, getvmpowerstate_parse (s.env (s.k + (m - 1))) = Except.ok ps ∧
          ps ≠ "poweredOn") ∧
        (b = false → m = n ∧
          ∀ i, i < m → getvmpowerstate_parse (s.env (s.k + i)) = Except.ok "poweredOn") := by
  intro n
  induction n with
  | zero =>
    intro s b s' h
    simp only [graceful_poll] at h
    obtain ⟨hb, hs⟩ : b = false ∧ s' = s := by
      cases h; exact ⟨rfl, rfl⟩
    subst hb; subst hs
    exact ⟨0, Nat.le_refl 0, rfl, rfl, by simp, by omega, by simp, fun _ => ⟨rfl, by omega⟩⟩
  | succ n ih =>
    intro s b s' h
    simp only [graceful_poll, getvmpowerstate_onbox, sendcommand_onbox] at h
    cases hp : getvmpowerstate_parse (s.env s.k) with
    | error e => rw [hp] at h; simp [Except.map] at h
    | ok ps =>
      rw [hp] at h
      simp only [Except.map] at h
      by_cases hon : ps = "poweredOn"
      · rw [if_pos hon] at h
        obtain ⟨m, hm, henv, hk, htr, hpre, htrue, hfalse⟩ :=
          ih ⟨s.env, s.k + 1, s.trace ++ [(Cmd.getSummary vmid, s.env s.k)]⟩ b s' h
        refine ⟨m + 1, by omega, henv, by simp at hk; omega, ?_, ?_, ?_, ?_⟩
        · rw [htr]
          simp only [List.range_succ_eq_map, List.map_cons, List.map_map]
          simp only [Nat.add_zero, List.append_assoc, List.singleton_append]
          congr 2
          apply List.map_congr_left
          intro a _
          simp only [Function.comp, Nat.succ_eq_add_one]
          have hx : s.k + 1 + a = s.k + (a + 1) := by omega
          rw [hx]
        · intro i hi
          cases i with
          | zero => rw [Nat.add_zero]; rw [hp, hon]
          | succ j =>
            have := hpre j (by omega)
            simpa [Nat.add_assoc, Nat.add_comm 1 j] using this
        · intro hb
          obtain ⟨h1, ps', hps', hne⟩ := htrue hb
          refine ⟨by omega, ps', ?_, hne⟩
          have : s.k + 1 + (m - 1) = s.k + (m + 1 - 1) := by omega
          rwa [this] at hps'
        · intro hb
          obtain ⟨h1, h2⟩ := hfalse hb
          refine ⟨by omega, ?_⟩
          intro i hi
          cases i with
          | zero => rw [Nat.add_zero]; rw [hp, hon]
          | succ j =>
            have := h2 j (by omega)
            simpa [Nat.add_assoc, Nat.add_comm 1 j] using this
      · rw [if_neg hon] at h
        obtain ⟨hb, hs⟩ : b = true ∧
            s' = ⟨s.env, s.k + 1, s.trace ++ [(Cmd.getSummary vmid, s.env s.k)]⟩ := by
          cases h; exact ⟨rfl, rfl⟩
        subst hb; subst hs
        refine ⟨1, by omega, rfl, rfl, by simp [List.range_succ], by omega, ?_, by simp⟩
        intro _
        exact ⟨Nat.le_refl 1, ps, by simpa using hp, hon⟩

lemma shutdownvm_run (v : String) (s : S) (s' : S)
    (h : shutdownvm_onbox v s = Except.ok s') :
    ∃ st, check_vmware_tools_status_parse (s.env s.k) = Except.ok st ∧
      s'.env = s.env ∧
      ((toolsUsable st = false ∧
          s'.trace = s.trace ++ [(Cmd.getGuest v, s.env s.k), (Cmd.powerOff v, s.env (s.k + 1))] ∧
          s'.k = s.k + 2) ∨
        (toolsUsable st = true ∧ ∃ m, 1 ≤ m ∧ m ≤ 10 ∧
          (∀ i, i + 1 < m → getvmpowerstate_parse (s.env (s.k + 2 + i)) = Except.ok "poweredOn") ∧
          ((∃ ps, getvmpowerstate_parse (s.env (s.k + 2 + (m - 1))) = Except.ok ps ∧
              ps ≠ "poweredOn" ∧
              s'.trace = s.trace ++ [(Cmd.getGuest v, s.env s.k), (Cmd.powerShutdown v, s.env (s.k + 1))] ++
                (List.range m).map (fun i => (Cmd.getSummary v, s.env (s.k + 2 + i))) ∧
              s'.k = s.k + 2 + m) ∨
            (m = 10 ∧
              (∀ i, i < 10 → getvmpowerstate_parse (s.env (s.k + 2 + i)) = Except.ok "poweredOn") ∧
              s'.trace = s.trace ++ [(Cmd.getGuest v, s.env s.k), (Cmd.powerShutdown v, s.env (s.k + 1))] ++
                (List.range 10).map (fun i => (Cmd.getSummary v, s.env (s.k + 2 + i))) ++
                [(Cmd.powerOff v, s.env (s.k + 12))] ∧
              s'.k = s.k + 13)))) := by
  simp only [shutdownvm_onbox, check_vmware_tools_status, sendcommand_onbox] at h
  cases hp : check_vmware_tools_status_parse (s.env s.k) with
  | error e => rw [hp] at h; simp [Except.map] at h
  | ok st =>
    rw [hp] at h
    simp only [Except.map] at h
    refine ⟨st, rfl, ?_⟩
    cases hU : toolsUsable st with
    | false =>
      rw [hU] at h
      simp only [Bool.false_eq_true, if_false, poweroffvm_onbox, sendcommand_onbox] at h
      obtain hs : s' = ⟨s.env, s.k + 1 + 1,
          (s.trace ++ [(Cmd.getGuest v, s.env s.k)]) ++ [(Cmd.powerOff v, s.env (s.k + 1))]⟩ := by
        cases h; rfl
      subst hs
      exact ⟨rfl, Or.inl ⟨rfl, by simp, rfl⟩⟩
    | true =>
      rw [hU] at h
      simp only [if_true, graceful_shutdown_onbox, sendcommand_onbox, SHUTDOWN_TIMEOUT_PER_VM] at h
      cases hgp : graceful_poll v 10 ⟨s.env, s.k + 1 + 1,
          (s.trace ++ [(Cmd.getGuest v, s.env s.k)]) ++ [(Cmd.powerShutdown v, s.env (s.k + 1))]⟩ with
      | error e => rw [hgp] at h; simp at h
      | ok r =>
        rcases r with ⟨b, s3⟩
        rw [hgp] at h
        obtain ⟨m, hm, henv3, hk3, htr3, hpre, htrue, hfalse⟩ := graceful_poll_run v 10 _ b s3 hgp
        simp only at henv3 hk3 htr3 hpre htrue hfalse
        cases b with
        | true =>
          simp only [if_true] at h
          obtain hs : s' = s3 := by cases h; rfl
          subst hs
          obtain ⟨h1, ps, hps, hne⟩ := htrue rfl
          refine ⟨henv3, Or.inr ⟨rfl, m, h1, hm, ?_, Or.inl ⟨ps, ?_, hne, ?_, ?_⟩⟩⟩
          · intro i hi
            have := hpre i hi
            rwa [show s.k + 1 + 1 + i = s.k + 2 + i by omega] at this
          · rwa [show s.k + 1 + 1 + (m - 1) = s.k + 2 + (m - 1) by omega] at hps
          · rw [htr3]
            simp only [List.append_assoc, List.cons_append, List.nil_append]
          · omega
        | false =>
          simp only [Bool.false_eq_true, if_false, poweroffvm_onbox, sendcommand_onbox] at h
          obtain ⟨hmn, hall⟩ := hfalse rfl
          obtain hs : s' = ⟨s3.env, s3.k + 1, s3.trace ++ [(Cmd.powerOff v, s3.env s3.k)]⟩ := by
            cases h; rfl
          subst hs
          refine ⟨henv3, Or.inr ⟨rfl, 10, by omega, by omega, ?_, Or.inr ⟨rfl, ?_, ?_, ?_⟩⟩⟩
          · intro i hi
            have := hall i (by omega)
            rwa [show s.k + 1 + 1 + i = s.k + 2 + i by omega] at this
          · intro i hi
            have := hall i (by omega)
            rwa [show s.k + 1 + 1 + i = s.k + 2 + i by omega] at this
          · simp only [htr3, henv3, hk3, hmn]
            simp only [List.append_assoc, List.cons_append, List.nil_append]
          · simp only [hk3, hmn]

lemma shutdownvm_delta (v : String) (s : S) (s' : S)
    (h : shutdownvm_onbox v s = Except.ok s') :
    s'.env = s.env ∧ ∃ rest, s'.trace = s.trace ++ (Cmd.getGuest v, s.env s.k) :: rest ∧
      KindsIn rest [CmdKind.powerShutdown, CmdKind.getSummary, CmdKind.powerOff] := by
  obtain ⟨st, hst, henv, hcase⟩ := shutdownvm_run v s s' h
  refine ⟨henv, ?_⟩
  rcases hcase with ⟨_, htr, _⟩ | ⟨_, m, _, _, _, hcase2⟩
  · refine ⟨[(Cmd.powerOff v, s.env (s.k + 1))], by simpa using htr, ?_⟩
    intro e he
    simp only [List.mem_singleton] at he
    subst he
    simp [Cmd.kind]
  · rcases hcase2 with ⟨ps, _, _, htr, _⟩ | ⟨_, _, htr, _⟩
    · refine ⟨(Cmd.powerShutdown v, s.env (s.k + 1)) ::
        (List.range m).map (fun i => (Cmd.getSummary v, s.env (s.k + 2 + i))),
        by simpa [List.append_assoc] using htr, ?_⟩
      intro e he
      rcases List.mem_cons.mp he with he1 | hmem
      · subst he1; simp [Cmd.kind]
      · obtain ⟨i, _, he2⟩ := List.mem_map.mp hmem
        subst he2; simp [Cmd.kind]
    · refine ⟨(Cmd.powerShutdown v, s.env (s.k + 1)) ::
        ((List.range 10).map (fun i => (Cmd.getSummary v, s.env (s.k + 2 + i))) ++
          [(Cmd.powerOff v, s.env (s.k + 12))]),
        by simpa [List.append_assoc] using htr, ?_⟩
      intro e he
      rcases List.mem_cons.mp he with he1 | hmem
      · subst he1; simp [Cmd.kind]
      · rcases List.mem_append.mp hmem with hmem2 | hmem3
        · obtain ⟨i, _, he2⟩ := List.mem_map.mp hmem2
          subst he2; simp [Cmd.kind]
        · simp only [List.mem_singleton] at hmem3
          subst hmem3; simp [Cmd.kind]

lemma mmPoll_run (target : String) :
    ∀ (n : Nat) (s : S) (b : Bool) (s' : S),
      mmPoll target n s = (b, s') →
      s'.env = s.env ∧ ∃ m, m ≤ n ∧ s'.k = s.k + m ∧
        s'.trace = s.trace ++ (List.range m).map (fun i => (Cmd.mmGet, s.env (s.k + i))) ∧
        (b = true → 1 ≤ m ∧ pyLower (pyStrip (s.env (s.k + (m - 1)))) = target) ∧
        (b = false → m = n ∧
          ∀ i, i < m → ¬ pyLower (pyStrip (s.env (s.k + i))) = target) := by
  intro n
  induction n with
  | zero =>
    intro s b s' h
    simp only [mmPoll] at h
    obtain ⟨hb, hs⟩ : b = false ∧ s' = s := by cases h; exact ⟨rfl, rfl⟩
    subst hb; subst hs
    exact ⟨rfl, 0, Nat.le_refl 0, rfl, by simp, by simp, fun _ => ⟨rfl, by omega⟩⟩
  | succ n ih =>
    intro s b s' h
    simp only [mmPoll, sendcommand_onbox] at h
    by_cases hT : pyLower (pyStrip (s.env s.k)) = target
    · rw [if_pos hT] at h
      obtain ⟨hb, hs⟩ : b = true ∧
          s' = ⟨s.env, s.k + 1, s.trace ++ [(Cmd.mmGet, s.env s.k)]⟩ := by
        cases h; exact ⟨rfl, rfl⟩
      subst hb; subst hs
      refine ⟨rfl, 1, by omega, rfl, by simp [List.range_succ], ?_, by simp⟩
      intro _
      exact ⟨Nat.le_refl 1, by simpa using hT⟩
    · rw [if_neg hT] at h
      obtain ⟨henv, m, hm, hk, htr, htrue, hfalse⟩ :=
        ih ⟨s.env, s.k + 1, s.trace ++ [(Cmd.mmGet, s.env s.k)]⟩ b s' h
      simp only at henv hk htr htrue hfalse
      refine ⟨henv, m + 1, by omega, by omega, ?_, ?_, ?_⟩
      · rw [htr]
        simp only [List.range_succ_eq_map, List.map_cons, List.map_map]
        simp only [Nat.add_zero, List.append_assoc, List.singleton_append]
        congr 2
        apply List.map_congr_left
        intro a _
        simp only [Function.comp, Nat.succ_eq_add_one]
        have hx : s.k + 1 + a = s.k + (a + 1) := by omega
        rw [hx]
      · intro hb
        obtain ⟨h1, h2⟩ := htrue hb
        refine ⟨by omega, ?_⟩
        rwa [show s.k + 1 + (m - 1) = s.k + (m + 1 - 1) by omega] at h2
      · intro hb
        obtain ⟨h1, h2⟩ := hfalse hb
        refine ⟨by omega, ?_⟩
        intro i hi
        cases i with
        | zero => simpa using hT
        | succ j =>
          have := h2 j (by omega)
          rwa [show s.k + 1 + j = s.k + (j + 1) by omega] at this

lemma maintenancemode_run (enable : Bool) (s : S) (b : Bool) (s' : S)
    (h : maintenancemode_onbox enable s = (b, s')) :
    s'.env = s.env ∧ ∃ Δ, s'.trace = s.trace ++ Δ ∧
      KindsIn Δ [(if enable then CmdKind.mmEnable else CmdKind.mmDisable), CmdKind.mmGet] ∧
      hasKind Δ (if enable then CmdKind.mmEnable else CmdKind.mmDisable) = true ∧
      (b = true → ∃ o ∈ mmReads Δ,
        pyLower (pyStrip o) = (if enable then "enabled" else "disabled")) ∧
      (b = false → ∀ o ∈ mmReads Δ,
        ¬ pyLower (pyStrip o) = (if enable then "enabled" else "disabled")) := by
  cases enable with
  | true =>
    simp only [maintenancemode_onbox, if_true, sendcommand_onbox] at h
    obtain ⟨henv, m, hm, hk, htr, htrue, hfalse⟩ :=
      mmPoll_run "enabled" MAINTENANCE_MODE_TIMEOUT _ b s' h
    simp only at henv hk htr htrue hfalse
    refine ⟨henv, (Cmd.mmSet true, s.env s.k) ::
      (List.range m).map (fun i => (Cmd.mmGet, s.env (s.k + 1 + i))), ?_, ?_, by
        simp [hasKind, Cmd.kind], ?_, ?_⟩
    · rw [htr]; simp [List.append_assoc]
    · intro e he
      rcases List.mem_cons.mp he with he1 | hmem
      · subst he1; simp [Cmd.kind]
      · obtain ⟨i, _, he2⟩ := List.mem_map.mp hmem
        subst he2; simp [Cmd.kind]
    · intro hb
      obtain ⟨h1, h2⟩ := htrue hb
      refine ⟨s.env (s.k + 1 + (m - 1)), ?_, by simpa using h2⟩
      simp only [mmReads, List.filterMap_cons]
      simp only [List.mem_filterMap]
      exact ⟨(Cmd.mmGet, s.env (s.k + 1 + (m - 1))),
        List.mem_map.mpr ⟨m - 1, by simp only [List.mem_range]; omega, rfl⟩, rfl⟩
    · intro hb o ho
      simp only [mmReads, List.filterMap_cons] at ho
      obtain ⟨h1, h2⟩ := hfalse hb
      simp only [List.mem_filterMap] at ho
      obtain ⟨e, hemem, heo⟩ := ho
      obtain ⟨i, hirange, he2⟩ := List.mem_map.mp hemem
      subst he2
      simp only at heo
      obtain heo2 : o = s.env (s.k + 1 + i) := by cases heo; rfl
      subst heo2
      simp only [List.mem_range] at hirange
      exact h2 i (by omega)
  | false =>
    simp only [maintenancemode_onbox, Bool.false_eq_true, if_false, sendcommand_onbox] at h
    obtain ⟨henv, m, hm, hk, htr, htrue, hfalse⟩ := mmPoll_run "disabled" 5 _ b s' h
    simp only at henv hk htr htrue hfalse
    refine ⟨henv, (Cmd.mmSet false, s.env s.k) ::
      (List.range m).map (fun i => (Cmd.mmGet, s.env (s.k + 1 + i))), ?_, ?_, by
        simp [hasKind, Cmd.kind], ?_, ?_⟩
    · rw [htr]; simp [List.append_assoc]
    · intro e he
      rcases List.mem_cons.mp he with he1 | hmem
      · subst he1; simp [Cmd.kind]
      · obtain ⟨i, _, he2⟩ := List.mem_map.mp hmem
        subst he2; simp [Cmd.kind]
    · intro hb
      obtain ⟨h1, h2⟩ := htrue hb
      refine ⟨s.env (s.k + 1 + (m - 1)), ?_, by simpa using h2⟩
      simp only [mmReads, List.filterMap_cons]
      simp only [List.mem_filterMap]
      exact ⟨(Cmd.mmGet, s.env (s.k + 1 + (m - 1))),
        List.mem_map.mpr ⟨m - 1, by simp only [List.mem_range]; omega, rfl⟩, rfl⟩
    · intro hb o ho
      simp only [mmReads, List.filterMap_cons] at ho
      obtain ⟨h1, h2⟩ := hfalse hb
      simp only [List.mem_filterMap] at ho
      obtain ⟨e, hemem, heo⟩ := ho
      obtain ⟨i, hirange, he2⟩ := List.mem_map.mp hemem
      subst he2
      simp only at heo
      obtain heo2 : o = s.env (s.k + 1 + i) := by cases heo; rfl
      subst heo2
      simp only [List.mem_range] at hirange
      exact h2 i (by omega)

lemma quiesceLoop_run :
    ∀ (vms : List String) (seq : Nat) (s : S) (restore : List String) (s' : S),
      quiesceLoop vms seq s = Except.ok (restore, s') →
      s'.env = s.env ∧ ∃ Δ, s'.trace = s.trace ++ Δ ∧
        KindsIn Δ [CmdKind.getSummary, CmdKind.updateAutostart, CmdKind.getGuest,
          CmdKind.powerShutdown, CmdKind.powerOff] ∧
        autosOf Δ = restore.zip (List.range' seq restore.length) ∧
        (∀ p, scanPrev registeredBefore p Δ = true) := by
  intro vms
  induction vms with
  | nil =>
    intro seq s restore s' h
    simp only [quiesceLoop] at h
    obtain ⟨hr, hs⟩ : ([] : List String) = restore ∧ s = s' := by cases h; exact ⟨rfl, rfl⟩
    subst hr
    subst hs
    exact ⟨rfl, [], by simp, KindsIn.nil, by simp [autosOf], fun p => rfl⟩
  | cons v rest ih =>
    intro seq s restore s' h
    simp only [quiesceLoop, getvmpowerstate_onbox, sendcommand_onbox] at h
    cases hp : getvmpowerstate_parse (s.env s.k) with
    | error e => rw [hp] at h; simp [Except.map] at h
    | ok ps =>
      rw [hp] at h
      simp only [Except.map] at h
      by_cases hon : ps = "poweredOn"
      · rw [if_pos hon] at h
        cases hsd : shutdownvm_onbox v ⟨s.env, s.k + 1 + 1,
            (s.trace ++ [(Cmd.getSummary v, s.env s.k)]) ++
              [(Cmd.updateAutostartEntry v seq, s.env (s.k + 1))]⟩ with
        | error e =>
          rw [hsd] at h
          exact absurd h (by simp)
        | ok s3 =>
          rw [hsd] at h
          have h2 : (quiesceLoop rest (seq + 1) s3).map (fun r => (v :: r.1, r.2)) =
              Except.ok (restore, s') := h
          obtain ⟨henv3, restΔ, htr3, hkinds3⟩ := shutdownvm_delta v _ s3 hsd
          simp only at henv3 htr3
          cases hq : quiesceLoop rest (seq + 1) s3 with
          | error e => rw [hq] at h2; simp [Except.map] at h2
          | ok r =>
            rcases r with ⟨r1, r2⟩
            rw [hq] at h2
            simp only [Except.map] at h2
            obtain ⟨hr, hs⟩ : v :: r1 = restore ∧ r2 = s' := by cases h2; exact ⟨rfl, rfl⟩
            subst hs
            obtain ⟨henv', Δrest, htr', hkinds', hautos', hscan'⟩ := ih (seq + 1) s3 r1 r2 hq
            refine ⟨by rw [henv', henv3], (Cmd.getSummary v, s.env s.k) ::
              (Cmd.updateAutostartEntry v seq, s.env (s.k + 1)) ::
              (Cmd.getGuest v, s.env (s.k + 1 + 1)) :: (restΔ ++ Δrest), ?_, ?_, ?_, ?_⟩
            · rw [htr', htr3]
              simp [List.append_assoc]
            · intro e he
              rcases List.mem_cons.mp he with he1 | he
              · subst he1; simp [Cmd.kind]
              rcases List.mem_cons.mp he with he1 | he
              · subst he1; simp [Cmd.kind]
              rcases List.mem_cons.mp he with he1 | he
              · subst he1; simp [Cmd.kind]
              rcases List.mem_append.mp he with he1 | he1
              · have := hkinds3 e he1
                simp only [List.mem_cons, List.mem_singleton] at this ⊢
                tauto
              · exact hkinds' e he1
            · rw [← hr]
              simp only [autosOf, List.filterMap_cons, List.filterMap_append]
              have hrestΔ : (restΔ.filterMap (fun e =>
                  match e.1 with | Cmd.updateAutostartEntry v n => some (v, n) | _ => none)) = [] := by
                have := autosOf_eq_nil (Δ := restΔ) hkinds3 (by simp)
                simpa [autosOf] using this
              rw [hrestΔ]
              have hΔrest : (Δrest.filterMap (fun e =>
                  match e.1 with | Cmd.updateAutostartEntry v n => some (v, n) | _ => none)) =
                  r1.zip (List.range' (seq + 1) r1.length) := by
                simpa [autosOf] using hautos'
              rw [hΔrest]
              simp [List.range'_succ]
            · intro p
              have hx1 : registeredBefore p (Cmd.getSummary v, s.env s.k) = true := by
                simp [registeredBefore]
              have hx2 : registeredBefore (some (Cmd.getSummary v, s.env s.k))
                  (Cmd.updateAutostartEntry v seq, s.env (s.k + 1)) = true := by
                simp [registeredBefore]
              have hx3 : registeredBefore (some (Cmd.updateAutostartEntry v seq, s.env (s.k + 1)))
                  (Cmd.getGuest v, s.env (s.k + 1 + 1)) = true := by
                simp [registeredBefore]
              have hx4 : scanPrev registeredBefore
                  (some (Cmd.getGuest v, s.env (s.k + 1 + 1))) (restΔ ++ Δrest) = true := by
                rw [scanPrev_append]
                simp only [Bool.and_eq_true]
                exact ⟨registeredBefore_of_kinds hkinds3 (by simp) _, hscan' _⟩
              simp [scanPrev, hx1, hx2, hx3, hx4]
      · rw [if_neg hon] at h
        obtain ⟨henv', Δrest, htr', hkinds', hautos', hscan'⟩ :=
          ih seq ⟨s.env, s.k + 1, s.trace ++ [(Cmd.getSummary v, s.env s.k)]⟩ restore s' h
        simp only at henv' htr'
        refine ⟨henv', (Cmd.getSummary v, s.env s.k) :: Δrest, ?_, ?_, ?_, ?_⟩
        · rw [htr']; simp
        · intro e he
          rcases List.mem_cons.mp he with he1 | he
          · subst he1; simp [Cmd.kind]
          · exact hkinds' e he
        · simp only [autosOf, List.filterMap_cons]
          simpa [autosOf] using hautos'
        · intro p
          have hx1 : registeredBefore p (Cmd.getSummary v, s.env s.k) = true := by
            simp [registeredBefore]
          simp [scanPrev, hx1, hscan']

lemma restoreLoop_run :
    ∀ (vms : List String) (s : S) (s' : S),
      restoreLoop vms s = Except.ok s' →
      s'.env = s.env ∧ ∃ Δ, s'.trace = s.trace ++ Δ ∧
        KindsIn Δ [CmdKind.getSummary, CmdKind.powerOn] ∧
        powerOns Δ = restoreSelects s.env vms s.k ∧
        (∀ p, scanPrev freshOffBefore p Δ = true) := by
  intro vms
  induction vms with
  | nil =>
    intro s s' h
    simp only [restoreLoop] at h
    obtain hs : s = s' := by cases h; rfl
    subst hs
    exact ⟨rfl, [], by simp, KindsIn.nil, by simp [powerOns, restoreSelects], fun p => rfl⟩
  | cons v rest ih =>
    intro s s' h
    simp only [restoreLoop, getvmpowerstate_onbox, sendcommand_onbox, poweron_onbox] at h
    cases hp : getvmpowerstate_parse (s.env s.k) with
    | error e => rw [hp] at h; simp [Except.map] at h
    | ok ps =>
      rw [hp] at h
      simp only [Except.map] at h
      have hsel : restoreSelects s.env (v :: rest) s.k =
          if ps = "poweredOff" then v :: restoreSelects s.env rest (s.k + 2)
          else restoreSelects s.env rest (s.k + 1) := by
        simp [restoreSelects, hp]
      by_cases hoff : ps = "poweredOff"
      · rw [if_pos hoff] at h
        obtain ⟨henv', Δrest, htr', hkinds', hpow', hscan'⟩ := ih _ s' h
        simp only at henv' htr' hpow'
        refine ⟨henv', (Cmd.getSummary v, s.env s.k) :: (Cmd.powerOn v, s.env (s.k + 1)) ::
          Δrest, ?_, ?_, ?_, ?_⟩
        · rw [htr']; simp
        · intro e he
          rcases List.mem_cons.mp he with he1 | he
          · subst he1; simp [Cmd.kind]
          rcases List.mem_cons.mp he with he1 | he
          · subst he1; simp [Cmd.kind]
          · exact hkinds' e he
        · rw [hsel, if_pos hoff]
          simp only [powerOns, List.filterMap_cons]
          simpa [powerOns] using hpow'
        · intro p
          have hx1 : freshOffBefore p (Cmd.getSummary v, s.env s.k) = true := by
            simp [freshOffBefore]
          have hx2 : freshOffBefore (some (Cmd.getSummary v, s.env s.k))
              (Cmd.powerOn v, s.env (s.k + 1)) = true := by
            simp only [freshOffBefore, hp]
            simp [hoff]
          simp [scanPrev, hx1, hx2, hscan']
      · rw [if_neg hoff] at h
        obtain ⟨henv', Δrest, htr', hkinds', hpow', hscan'⟩ :=
          ih ⟨s.env, s.k + 1, s.trace ++ [(Cmd.getSummary v, s.env s.k)]⟩ s' h
        simp only at henv' htr' hpow'
        refine ⟨henv', (Cmd.getSummary v, s.env s.k) :: Δrest, ?_, ?_, ?_, ?_⟩
        · rw [htr']; simp
        · intro e he
          rcases List.mem_cons.mp he with he1 | he
          · subst he1; simp [Cmd.kind]
          · exact hkinds' e he
        · rw [hsel, if_neg hoff]
          simp only [powerOns, List.filterMap_cons]
          simpa [powerOns] using hpow'
        · intro p
          have hx1 : freshOffBefore p (Cmd.getSummary v, s.env s.k) = true := by
            simp [freshOffBefore]
          simp [scanPrev, hx1, hscan']

/-! ## The shape of a completed run of `main` -/

/-- The five commands every run issues before the per-VM loop. -/
def headTrace (env : Nat → String) : List (Cmd × String) :=
  [(Cmd.pwd, env 0), (Cmd.ls (pyStrip (env 0)), env 1), (Cmd.enableSsh, env 2),
   (Cmd.enableAutostart, env 3), (Cmd.getAllVms, env 4)]

lemma mainCore_eq (vms : List String) (fp : String) (s : S) (restore : List String) (s6 : S)
    (hql : quiesceLoop vms 1 s = Except.ok (restore, s6)) :
    mainCore vms fp s =
      (if (maintenancemode_onbox true s6).1 = true then
        (if (pyContains (upgradehost_onbox fp (maintenancemode_onbox true s6).2).1 successMarker &&
            pyContains (upgradehost_onbox fp (maintenancemode_onbox true s6).2).1
              rebootRequiredMarker) = true then
          Except.ok ⟨0, vms, restore, none, reboothost_onbox
            (maintenancemode_onbox false
              (upgradehost_onbox fp (maintenancemode_onbox true s6).2).2).2⟩
        else
          match restoreLoop vms (maintenancemode_onbox false
              (upgradehost_onbox fp (maintenancemode_onbox true s6).2).2).2 with
          | Except.error e => Except.error e
          | Except.ok s10 => Except.ok ⟨3, vms, restore,
              some (maintenancemode_onbox false
                (upgradehost_onbox fp (maintenancemode_onbox true s6).2).2).2.k, s10⟩)
      else
        match restoreLoop vms (maintenancemode_onbox true s6).2 with
        | Except.error e => Except.error e
        | Except.ok s8 => Except.ok ⟨2, vms, restore,
            some (maintenancemode_onbox true s6).2.k, s8⟩) := by
  unfold mainCore
  rw [hql]

lemma mainCore_shape (vms : List String) (fp : String) (s : S) (r : MainResult)
    (h : mainCore vms fp s = Except.ok r) :
    r.s.env = s.env ∧ r.vms = vms ∧
    ∃ Δq Δm,
      KindsIn Δq [CmdKind.getSummary, CmdKind.updateAutostart, CmdKind.getGuest,
        CmdKind.powerShutdown, CmdKind.powerOff] ∧
      autosOf Δq = r.restore.zip (List.range' 1 r.restore.length) ∧
      (∀ p, scanPrev registeredBefore p Δq = true) ∧
      KindsIn Δm [CmdKind.mmEnable, CmdKind.mmGet] ∧
      ((r.exit = 2 ∧
          (∀ o ∈ mmReads Δm, ¬ pyLower (pyStrip o) = "enabled") ∧
          ∃ kR ΔR, r.kRollback = some kR ∧
            KindsIn ΔR [CmdKind.getSummary, CmdKind.powerOn] ∧
            powerOns ΔR = restoreSelects s.env vms kR ∧
            (∀ p, scanPrev freshOffBefore p ΔR = true) ∧
            r.s.trace = s.trace ++ Δq ++ Δm ++ ΔR) ∨
        ((∃ o ∈ mmReads Δm, pyLower (pyStrip o) = "enabled") ∧
          ∃ out Δe orb, r.exit = 0 ∧ r.kRollback = none ∧
            (pyContains out successMarker && pyContains out rebootRequiredMarker) = true ∧
            KindsIn Δe [CmdKind.mmDisable, CmdKind.mmGet] ∧
            hasKind Δe CmdKind.mmDisable = true ∧
            r.s.trace = s.trace ++ Δq ++ Δm ++ [(Cmd.profileUpdate fp, out)] ++ Δe ++
              [(Cmd.reboot, orb)]) ∨
        ((∃ o ∈ mmReads Δm, pyLower (pyStrip o) = "enabled") ∧
          ∃ out Δe kR ΔR, r.exit = 3 ∧ r.kRollback = some kR ∧
            (pyContains out successMarker && pyContains out rebootRequiredMarker) = false ∧
            KindsIn Δe [CmdKind.mmDisable, CmdKind.mmGet] ∧
            hasKind Δe CmdKind.mmDisable = true ∧
            KindsIn ΔR [CmdKind.getSummary, CmdKind.powerOn] ∧
            powerOns ΔR = restoreSelects s.env vms kR ∧
            (∀ p, scanPrev freshOffBefore p ΔR = true) ∧
            r.s.trace = s.trace ++ Δq ++ Δm ++ [(Cmd.profileUpdate fp, out)] ++ Δe ++ ΔR)) := by
  cases hql : quiesceLoop vms 1 s with
  | error e => rw [mainCore] at h; rw [hql] at h; exact absurd h (by simp)
  | ok qr =>
    rcases qr with ⟨restore, s6⟩
    rw [mainCore_eq vms fp s restore s6 hql] at h
    obtain ⟨henv6, Δq, htr6, hkq, hautq, hscanq⟩ := quiesceLoop_run vms 1 s restore s6 hql
    rcases hmm : maintenancemode_onbox true s6 with ⟨mmOk, s7⟩
    rw [hmm] at h
    dsimp only at h
    obtain ⟨henv7, Δm, htr7, hkm, hkmE, hmmtrue, hmmfalse⟩ :=
      maintenancemode_run true s6 mmOk s7 hmm
    try simp only [reduceIte] at hkm hkmE hmmtrue hmmfalse
    cases mmOk with
    | false =>
      rw [if_neg (by simp)] at h
      cases hrl : restoreLoop vms s7 with
      | error e => rw [hrl] at h; exact absurd h (by simp)
      | ok s8 =>
        rw [hrl] at h
        obtain hr : (⟨2, vms, restore, some s7.k, s8⟩ : MainResult) = r := by
          cases h; rfl
        subst hr
        obtain ⟨henv8, ΔR, htr8, hkr, hpow, hscanr⟩ := restoreLoop_run vms s7 s8 hrl
        dsimp only
        refine ⟨by rw [henv8, henv7, henv6], rfl, Δq, Δm, hkq, hautq, hscanq, hkm, Or.inl ?_⟩
        refine ⟨rfl, hmmfalse rfl, s7.k, ΔR, rfl, hkr, ?_, hscanr, ?_⟩
        · rw [hpow, henv7, henv6]
        · rw [htr8, htr7, htr6]
    | true =>
      rw [if_pos rfl] at h
      rcases hup : upgradehost_onbox fp s7 with ⟨upResp, s8⟩
      rw [hup] at h
      dsimp only at h
      obtain ⟨hupW, hup8⟩ : upResp = s7.env s7.k ∧
          s8 = ⟨s7.env, s7.k + 1, s7.trace ++ [(Cmd.profileUpdate fp, s7.env s7.k)]⟩ := by
        have hup2 : ((s7.env s7.k, ⟨s7.env, s7.k + 1,
            s7.trace ++ [(Cmd.profileUpdate fp, s7.env s7.k)]⟩) : String × S) =
            (upResp, s8) := hup
        exact ⟨(Prod.mk.injEq _ _ _ _ |>.mp hup2).1.symm,
          ((Prod.mk.injEq _ _ _ _ |>.mp hup2).2).symm⟩
      rcases hme : maintenancemode_onbox false s8 with ⟨meOk, s9⟩
      rw [hme] at h
      try dsimp only at h
      obtain ⟨henv9, Δe, htr9, hke, hkd, hmetrue, hmefalse⟩ :=
        maintenancemode_run false s8 meOk s9 hme
      try simp only [reduceIte] at hke hkd hmetrue hmefalse
      by_cases hmark : (pyContains upResp successMarker &&
          pyContains upResp rebootRequiredMarker) = true
      · rw [if_pos hmark] at h
        obtain hr : (⟨0, vms, restore, none, reboothost_onbox s9⟩ : MainResult) = r := by
          cases h; rfl
        subst hr
        dsimp only [reboothost_onbox, sendcommand_onbox]
        refine ⟨by rw [henv9, hup8, henv7, henv6], rfl, Δq, Δm, hkq, hautq, hscanq, hkm,
          Or.inr (Or.inl ?_)⟩
        refine ⟨hmmtrue rfl, upResp, Δe, s9.env s9.k, rfl, rfl, hmark, hke, hkd, ?_⟩
        rw [htr9, hup8]
        dsimp only
        rw [htr7, htr6, hupW]
      · rw [if_neg hmark] at h
        cases hrl : restoreLoop vms s9 with
        | error e => rw [hrl] at h; exact absurd h (by simp)
        | ok s10 =>
          rw [hrl] at h
          obtain hr : (⟨3, vms, restore, some s9.k, s10⟩ : MainResult) = r := by
            cases h; rfl
          subst hr
          obtain ⟨henv10, ΔR, htr10, hkr, hpow, hscanr⟩ := restoreLoop_run vms s9 s10 hrl
          dsimp only
          refine ⟨by rw [henv10, henv9, hup8, henv7, henv6], rfl, Δq, Δm, hkq, hautq, hscanq,
            hkm, Or.inr (Or.inr ?_)⟩
          refine ⟨hmmtrue rfl, upResp, Δe, s9.k, ΔR, rfl, rfl, by simpa using hmark, hke, hkd,
            hkr, ?_, hscanr, ?_⟩
          · rw [hpow, henv9, hup8, henv7, henv6]
          · rw [htr10, htr9, hup8]
            dsimp only
            rw [htr7, htr6, hupW]

/-- The state after the five head commands of `main`. -/
def S.afterHead (env : Nat → String) : S := ⟨env, 5, headTrace env⟩

lemma main_v4_eq (env : Nat → String) :
    main_v4 (S.init env) =
      (if pyContains (env 1) UPGRADE_FILENAME = true then
        mainCore (getvms_parse (env 4)) (pyStrip (env 0) ++ "/" ++ UPGRADE_FILENAME)
          (S.afterHead env)
      else
        Except.ok ⟨1, [], [], none,
          ⟨env, 2, [(Cmd.pwd, env 0), (Cmd.ls (pyStrip (env 0)), env 1)]⟩⟩) := rfl

lemma main_shape (env : Nat → String) (r : MainResult)
    (h : main_v4 (S.init env) = Except.ok r) :
    (pyContains (env 1) UPGRADE_FILENAME = false ∧
      r = ⟨1, [], [], none,
        ⟨env, 2, [(Cmd.pwd, env 0), (Cmd.ls (pyStrip (env 0)), env 1)]⟩⟩) ∨
    (pyContains (env 1) UPGRADE_FILENAME = true ∧
      mainCore (getvms_parse (env 4)) (pyStrip (env 0) ++ "/" ++ UPGRADE_FILENAME)
        (S.afterHead env) = Except.ok r) := by
  rw [main_v4_eq env] at h
  cases hc : pyContains (env 1) UPGRADE_FILENAME with
  | false =>
    rw [hc, if_neg (by simp)] at h
    left
    refine ⟨rfl, ?_⟩
    cases h
    rfl
  | true =>
    right
    exact ⟨rfl, by rwa [hc, if_pos rfl] at h⟩

/-! ## Claim-level definitions -/

/-- The upgrade-verdict test of `main` step 8: both marker substrings must
occur in the upgrade command's output. -/
def bothMarkers (out : String) : Bool :=
  pyContains out successMarker && pyContains out rebootRequiredMarker

/-- The result of a completed run, for evaluating runs at concrete
oracles. -/
def resultOf (env : Nat → String) : MainResult :=
  (main_v4 (S.init env)).toOption.getD ⟨0, [], [], none, S.init env⟩

lemma scanPrev_append_all (P : Option (Cmd × String) → Cmd × String → Bool)
    {xs ys : List (Cmd × String)} (hx : ∀ p, scanPrev P p xs = true)
    (hy : ∀ p, scanPrev P p ys = true) : ∀ p, scanPrev P p (xs ++ ys) = true := by
  intro p
  rw [scanPrev_append, hx, hy]
  rfl

lemma scanPrev_fresh_head (env : Nat → String) :
    ∀ p, scanPrev freshOffBefore p (S.afterHead env).trace = true := fun _ => rfl

lemma scanPrev_reg_head (env : Nat → String) :
    ∀ p, scanPrev registeredBefore p (S.afterHead env).trace = true := fun _ => rfl

lemma scanPrev_fresh_single_profile (fp out : String) :
    ∀ p, scanPrev freshOffBefore p [(Cmd.profileUpdate fp, out)] = true := fun _ => rfl

lemma scanPrev_fresh_single_reboot (orb : String) :
    ∀ p, scanPrev freshOffBefore p [(Cmd.reboot, orb)] = true := fun _ => rfl

lemma scanPrev_reg_single_profile (fp out : String) :
    ∀ p, scanPrev registeredBefore p [(Cmd.profileUpdate fp, out)] = true := fun _ => rfl

lemma scanPrev_reg_single_reboot (orb : String) :
    ∀ p, scanPrev registeredBefore p [(Cmd.reboot, orb)] = true := fun _ => rfl

/-! ## Concrete oracles for witnesses and counterexamples -/

/-- A run in which the host holds one workload that is already powered off
at discovery, maintenance-mode entry times out, and the rollback read of
the workload reports `poweredOff`. -/
def envC1 : Nat → String
  | 1 => UPGRADE_FILENAME
  | 4 => "1"
  | 5 => "powerState = \"poweredOff\","
  | 52 => "powerState = \"poweredOff\","
  | _ => ""

/-- A run with one workload powered on at discovery (tools unavailable, so
it is force-quiesced), maintenance mode entering at once, a failing
upgrade verdict, and a rollback read that comes back unparseable
(`unknown`). -/
def envC2 : Nat → String
  | 1 => UPGRADE_FILENAME
  | 4 => "1"
  | 5 => "powerState = \"poweredOn\","
  | 10 => "enabled"
  | 11 => "nope"
  | 13 => "disabled"
  | _ => ""

/-- A run with one workload powered on at discovery and force-quiesced,
after which maintenance-mode entry times out and the rollback read comes
back unparseable (`unknown`). -/
def envC3 : Nat → String
  | 1 => UPGRADE_FILENAME
  | 4 => "1"
  | 5 => "powerState = \"poweredOn\","
  | _ => ""

/-- A run with no workloads, instant maintenance-mode entry, a successful
upgrade verdict, and a maintenance-mode exit poll that never reports
`disabled`. -/
def envC6 : Nat → String
  | 1 => UPGRADE_FILENAME
  | 6 => "enabled"
  | 7 => "The update completed successfully. Reboot Required: true"
  | _ => ""

/-! ## C10 -/

/-- C10: in both rollback paths, a power-on command is issued for a
workload only when a power-state query of that same workload, issued
immediately before, parsed to exactly the string `"poweredOff"`; a
workload whose power state reads `"unknown"` is never issued a power-on
command, even if it was powered on at discovery. -/
theorem C10_theorem : ∀ (env : Nat → String) (r : MainResult),
    main_v4 (S.init env) = Except.ok r → powerOnsJustified r.s.trace = true := by
  intro env r h
  rcases main_shape env r h with ⟨hnf, hr⟩ | ⟨hf, hcore⟩
  · subst hr
    rfl
  · obtain ⟨henv, hvms, Δq, Δm, hkq, hautq, hscanq, hkm, hpath⟩ :=
      mainCore_shape _ _ _ r hcore
    have hq : ∀ p, scanPrev freshOffBefore p Δq = true :=
      freshOffBefore_of_kinds hkq (by simp)
    have hm : ∀ p, scanPrev freshOffBefore p Δm = true :=
      freshOffBefore_of_kinds hkm (by simp)
    rcases hpath with ⟨_, _, kR, ΔR, _, hkr, _, hscanr, htr⟩ |
      ⟨_, out, Δe, orb, _, _, _, hke, _, htr⟩ |
      ⟨_, out, Δe, kR, ΔR, _, _, _, hke, _, hkr, _, hscanr, htr⟩
    · rw [powerOnsJustified, htr]
      exact scanPrev_append_all _ (scanPrev_append_all _
        (scanPrev_append_all _ (scanPrev_fresh_head env) hq) hm) hscanr none
    · rw [powerOnsJustified, htr]
      exact scanPrev_append_all _ (scanPrev_append_all _ (scanPrev_append_all _
        (scanPrev_append_all _ (scanPrev_append_all _ (scanPrev_fresh_head env) hq) hm)
        (scanPrev_fresh_single_profile _ out))
        (freshOffBefore_of_kinds hke (by simp))) (scanPrev_fresh_single_reboot orb) none
    · rw [powerOnsJustified, htr]
      exact scanPrev_append_all _ (scanPrev_append_all _ (scanPrev_append_all _
        (scanPrev_append_all _ (scanPrev_append_all _ (scanPrev_fresh_head env) hq) hm)
        (scanPrev_fresh_single_profile _ out))
        (freshOffBefore_of_kinds hke (by simp))) hscanr none

/-- Witness for C10 at the concrete oracle `envC1`, whose run issues one
power-on after a fresh `poweredOff` read. -/
theorem C10_witness : powerOnsJustified (resultOf envC1).s.trace = true :=
  C10_theorem envC1 (resultOf envC1) rfl

/-! ## C1 -/

/-- The claim of C1 at a given oracle: on every failure path the set of
workloads issued a power-on command during rollback is exactly the set
observed `poweredOn` at discovery (the restore set). -/
def C1_claim (env : Nat → String) : Prop :=
  ∀ r, main_v4 (S.init env) = Except.ok r → (r.exit = 2 ∨ r.exit = 3) →
    ∀ v, v ∈ powerOns r.s.trace ↔ v ∈ r.restore

/-- C1 is false on the code: at `envC1` a workload that was already
`poweredOff` at discovery (hence outside the restore set) is issued a
power-on command during rollback, because the rollback loops walk all
discovered workloads and re-query current state instead of using the
discovery-time restore set. -/
theorem C1_counterexample : ¬ C1_claim envC1 := by
  intro hcl
  have h := hcl (resultOf envC1) rfl (Or.inl (by decide)) "1"
  rw [show powerOns (resultOf envC1).s.trace = ["1"] from by decide,
    show (resultOf envC1).restore = [] from by decide] at h
  simp at h

/-- C1 (amended): on every failure path (exit status 2 or 3), the set of
workloads issued a power-on command during rollback is recomputed from
current state: it is exactly the discovered workloads whose freshly
queried power state at rollback time parses to `poweredOff`
(`restoreSelects`), not the discovery-time restore set. -/
theorem C1_theorem : ∀ (env : Nat → String) (r : MainResult),
    main_v4 (S.init env) = Except.ok r → (r.exit = 2 ∨ r.exit = 3) →
    ∃ kR, r.kRollback = some kR ∧ powerOns r.s.trace = restoreSelects env r.vms kR := by
  intro env r h hexit
  rcases main_shape env r h with ⟨hnf, hr⟩ | ⟨hf, hcore⟩
  · subst hr
    simp at hexit
  · obtain ⟨henv, hvms, Δq, Δm, hkq, hautq, hscanq, hkm, hpath⟩ :=
      mainCore_shape _ _ _ r hcore
    rcases hpath with ⟨hex, _, kR, ΔR, hkRb, hkr, hpowR, _, htr⟩ |
      ⟨_, out, Δe, orb, hex0, _, _, _, _, _⟩ |
      ⟨_, out, Δe, kR, ΔR, hex3, hkRb, _, hke, _, hkr, hpowR, _, htr⟩
    · refine ⟨kR, hkRb, ?_⟩
      rw [htr]
      simp only [powerOns_append]
      rw [powerOns_eq_nil hkq (by simp), powerOns_eq_nil hkm (by simp), hpowR, hvms]
      rfl
    · rw [hex0] at hexit
      rcases hexit with h0 | h0 <;> exact absurd h0 (by decide)
    · refine ⟨kR, hkRb, ?_⟩
      rw [htr]
      simp only [powerOns_append]
      rw [powerOns_eq_nil hkq (by simp), powerOns_eq_nil hkm (by simp),
        powerOns_eq_nil hke (by simp), hpowR, hvms]
      rfl

/-- Witness for the amended C1 at the concrete oracle `envC1`. -/
theorem C1_witness : ∃ kR, (resultOf envC1).kRollback = some kR ∧
    powerOns (resultOf envC1).s.trace = restoreSelects envC1 (resultOf envC1).vms kR :=
  C1_theorem envC1 (resultOf envC1) rfl (Or.inl (by decide))

/-! ## C2 -/

lemma powerOns_headTrace (env : Nat → String) :
    powerOns (S.afterHead env).trace = [] := rfl

lemma upgradeOutputs_headTrace (env : Nat → String) :
    upgradeOutputs (S.afterHead env).trace = [] := rfl

lemma autosOf_headTrace (env : Nat → String) :
    autosOf (S.afterHead env).trace = [] := rfl

lemma mmReads_headTrace (env : Nat → String) :
    mmReads (S.afterHead env).trace = [] := rfl

lemma hasKind_headTrace_reboot (env : Nat → String) :
    hasKind (S.afterHead env).trace CmdKind.reboot = false := rfl

lemma hasKind_headTrace_mmDisable (env : Nat → String) :
    hasKind (S.afterHead env).trace CmdKind.mmDisable = false := rfl

lemma hasKind_headTrace_mmEnable (env : Nat → String) :
    hasKind (S.afterHead env).trace CmdKind.mmEnable = false := rfl

lemma hasKind_single_profile (fp out : String) (kd : CmdKind) :
    hasKind [(Cmd.profileUpdate fp, out)] kd = (CmdKind.profileUpdate == kd) := by
  simp [hasKind, Cmd.kind]

lemma hasKind_single_reboot (orb : String) (kd : CmdKind) :
    hasKind [(Cmd.reboot, orb)] kd = (CmdKind.reboot == kd) := by
  simp [hasKind, Cmd.kind]

/-- The claim of C2 at a given oracle: the reboot command is issued iff
the upgrade output holds both markers, and on a failed verdict the run
exits maintenance mode, re-powers the restore set, issues no reboot and
exits with status 3. -/
def C2_claim (env : Nat → String) : Prop :=
  ∀ r out, main_v4 (S.init env) = Except.ok r → upgradeOutputs r.s.trace = [out] →
    ((hasKind r.s.trace CmdKind.reboot = true ↔ bothMarkers out = true) ∧
     (bothMarkers out = false →
       r.exit = 3 ∧ hasKind r.s.trace CmdKind.mmDisable = true ∧
       hasKind r.s.trace CmdKind.reboot = false ∧
       ∀ v ∈ r.restore, v ∈ powerOns r.s.trace))

/-- C2 is false on the code in its "re-powers the restore set" clause: at
`envC2` the upgrade verdict fails, but the restore-set workload's rollback
read comes back `unknown`, so it is issued no power-on command. -/
theorem C2_counterexample : ¬ C2_claim envC2 := by
  intro hcl
  have h := hcl (resultOf envC2) "nope" rfl (by decide)
  have h2 := (h.2 (by decide)).2.2.2 "1" (by
    rw [show (resultOf envC2).restore = ["1"] from by decide]
    simp)
  rw [show powerOns (resultOf envC2).s.trace = [] from by decide] at h2
  simp at h2

/-- C2 (amended): the reboot command is issued iff the upgrade output
holds both the success marker and the reboot-required marker; if either is
absent, the run exits maintenance mode, issues no reboot, powers on
exactly the discovered workloads whose fresh rollback-time power-state
read is `poweredOff`, and terminates with exit status 3. -/
theorem C2_theorem : ∀ (env : Nat → String) (r : MainResult) (out : String),
    main_v4 (S.init env) = Except.ok r → upgradeOutputs r.s.trace = [out] →
    ((hasKind r.s.trace CmdKind.reboot = true ↔ bothMarkers out = true) ∧
     (bothMarkers out = false →
       r.exit = 3 ∧ hasKind r.s.trace CmdKind.mmDisable = true ∧
       hasKind r.s.trace CmdKind.reboot = false ∧
       ∃ kR, r.kRollback = some kR ∧ powerOns r.s.trace = restoreSelects env r.vms kR)) := by
  intro env r out h hout
  rcases main_shape env r h with ⟨hnf, hr⟩ | ⟨hf, hcore⟩
  · exfalso
    subst hr
    simp [upgradeOutputs] at hout
  · obtain ⟨henv, hvms, Δq, Δm, hkq, hautq, hscanq, hkm, hpath⟩ :=
      mainCore_shape _ _ _ r hcore
    rcases hpath with ⟨hex, _, kR, ΔR, hkRb, hkr, hpowR, _, htr⟩ |
      ⟨_, out2, Δe, orb, hex0, _, hmark, hke, hkd, htr⟩ |
      ⟨_, out2, Δe, kR, ΔR, hex3, hkRb, hmark, hke, hkd, hkr, hpowR, _, htr⟩
    · exfalso
      rw [htr] at hout
      simp only [upgradeOutputs_append] at hout
      rw [upgradeOutputs_eq_nil hkq (by simp), upgradeOutputs_eq_nil hkm (by simp),
        upgradeOutputs_eq_nil hkr (by simp), upgradeOutputs_headTrace] at hout
      simp at hout
    · rw [htr] at hout
      simp only [upgradeOutputs_append] at hout
      rw [upgradeOutputs_eq_nil hkq (by simp), upgradeOutputs_eq_nil hkm (by simp),
        upgradeOutputs_eq_nil hke (by simp), upgradeOutputs_headTrace] at hout
      simp only [upgradeOutputs, List.filterMap_cons, List.filterMap_nil] at hout
      obtain rfl : out2 = out := by
        simpa using hout
      have hrb : hasKind r.s.trace CmdKind.reboot = true := by
        rw [htr]
        simp only [hasKind_append, hasKind_single_reboot]
        simp
      constructor
      · exact ⟨fun _ => hmark, fun _ => hrb⟩
      · intro hbf
        simp only [bothMarkers] at hbf
        rw [hmark] at hbf
        simp at hbf
    · rw [htr] at hout
      simp only [upgradeOutputs_append] at hout
      rw [upgradeOutputs_eq_nil hkq (by simp), upgradeOutputs_eq_nil hkm (by simp),
        upgradeOutputs_eq_nil hke (by simp), upgradeOutputs_eq_nil hkr (by simp),
        upgradeOutputs_headTrace] at hout
      simp only [upgradeOutputs, List.filterMap_cons, List.filterMap_nil] at hout
      obtain rfl : out2 = out := by
        simpa using hout
      have e1 : hasKind Δq CmdKind.reboot = false := hasKind_eq_false hkq (by simp)
      have e2 : hasKind Δm CmdKind.reboot = false := hasKind_eq_false hkm (by simp)
      have e3 : hasKind Δe CmdKind.reboot = false := hasKind_eq_false hke (by simp)
      have e4 : hasKind ΔR CmdKind.reboot = false := hasKind_eq_false hkr (by simp)
      have hrb : hasKind r.s.trace CmdKind.reboot = false := by
        rw [htr]
        simp only [hasKind_append, hasKind_single_profile, hasKind_headTrace_reboot,
          e1, e2, e3, e4]
        decide
      have hmd : hasKind r.s.trace CmdKind.mmDisable = true := by
        rw [htr]
        simp only [hasKind_append, hkd]
        simp
      refine ⟨⟨?_, ?_⟩, fun _ => ⟨hex3, hmd, hrb, kR, hkRb, ?_⟩⟩
      · intro hc
        rw [hrb] at hc
        exact absurd hc (by simp)
      · intro hc
        simp only [bothMarkers] at hc
        rw [hc] at hmark
        exact absurd hmark (by simp)
      rw [htr]
      simp only [powerOns_append]
      rw [powerOns_eq_nil hkq (by simp), powerOns_eq_nil hkm (by simp),
        powerOns_eq_nil hke (by simp), hpowR, hvms]
      rfl

/-- Witness for the amended C2 at the concrete oracle `envC2` (upgrade ran
and its verdict failed: exit 3, maintenance mode exited, no reboot). -/
theorem C2_witness :
    ((hasKind (resultOf envC2).s.trace CmdKind.reboot = true ↔ bothMarkers "nope" = true) ∧
     (bothMarkers "nope" = false →
       (resultOf envC2).exit = 3 ∧
       hasKind (resultOf envC2).s.trace CmdKind.mmDisable = true ∧
       hasKind (resultOf envC2).s.trace CmdKind.reboot = false ∧
       ∃ kR, (resultOf envC2).kRollback = some kR ∧
         powerOns (resultOf envC2).s.trace = restoreSelects envC2 (resultOf envC2).vms kR)) :=
  C2_theorem envC2 (resultOf envC2) "nope" rfl (by decide)

/-! ## C3 -/

/-- The claim of C3 at a given oracle: if maintenance-mode entry was
attempted and no status read ever came back `enabled`, the run issues no
upgrade command, re-powers every workload in the restore set, and exits
with status 2. -/
def C3_claim (env : Nat → String) : Prop :=
  ∀ r, main_v4 (S.init env) = Except.ok r →
    hasKind r.s.trace CmdKind.mmEnable = true →
    (∀ o ∈ mmReads r.s.trace, ¬ pyLower (pyStrip o) = "enabled") →
    (upgradeOutputs r.s.trace = [] ∧ r.exit = 2 ∧
      ∀ v ∈ r.restore, v ∈ powerOns r.s.trace)

/-- C3 is false on the code in its "re-powers every workload in the
restore set" clause: at `envC3` maintenance-mode entry times out, but the
restore-set workload's rollback read comes back `unknown`, so it is never
re-powered. -/
theorem C3_counterexample : ¬ C3_claim envC3 := by
  intro hcl
  have h := (hcl (resultOf envC3) rfl (by decide) (by decide)).2.2 "1" (by
    rw [show (resultOf envC3).restore = ["1"] from by decide]
    simp)
  rw [show powerOns (resultOf envC3).s.trace = [] from by decide] at h
  simp at h

/-- C3 (amended): if maintenance-mode entry was attempted and no status
read ever came back `enabled` (the 45-second poll timed out), the run
issues no upgrade command, exits with status 2, and issues a power-on
command to exactly the discovered workloads whose fresh rollback-time
power-state read is `poweredOff`. -/
theorem C3_theorem : ∀ (env : Nat → String) (r : MainResult),
    main_v4 (S.init env) = Except.ok r →
    hasKind r.s.trace CmdKind.mmEnable = true →
    (∀ o ∈ mmReads r.s.trace, ¬ pyLower (pyStrip o) = "enabled") →
    (upgradeOutputs r.s.trace = [] ∧ r.exit = 2 ∧
      ∃ kR, r.kRollback = some kR ∧
        powerOns r.s.trace = restoreSelects env r.vms kR) := by
  intro env r h hEn hno
  rcases main_shape env r h with ⟨hnf, hr⟩ | ⟨hf, hcore⟩
  · subst hr
    simp [hasKind, Cmd.kind] at hEn
  · obtain ⟨henv, hvms, Δq, Δm, hkq, hautq, hscanq, hkm, hpath⟩ :=
      mainCore_shape _ _ _ r hcore
    rcases hpath with ⟨hex, _, kR, ΔR, hkRb, hkr, hpowR, _, htr⟩ |
      ⟨⟨o, ho, hoe⟩, out2, Δe, orb, _, _, _, _, _, htr⟩ |
      ⟨⟨o, ho, hoe⟩, out2, Δe, kR, ΔR, _, _, _, _, _, _, _, _, htr⟩
    · refine ⟨?_, hex, kR, hkRb, ?_⟩
      · rw [htr]
        simp only [upgradeOutputs_append]
        rw [upgradeOutputs_eq_nil hkq (by simp), upgradeOutputs_eq_nil hkm (by simp),
          upgradeOutputs_eq_nil hkr (by simp), upgradeOutputs_headTrace]
        rfl
      · rw [htr]
        simp only [powerOns_append]
        rw [powerOns_eq_nil hkq (by simp), powerOns_eq_nil hkm (by simp), hpowR, hvms]
        rfl
    · exact absurd hoe (hno o (by
        rw [htr]
        simp only [mmReads_append, List.mem_append]
        tauto))
    · exact absurd hoe (hno o (by
        rw [htr]
        simp only [mmReads_append, List.mem_append]
        tauto))

/-- Witness for the amended C3 at the concrete oracle `envC3`, where
maintenance-mode entry times out after its 45 polls. -/
theorem C3_witness :
    upgradeOutputs (resultOf envC3).s.trace = [] ∧ (resultOf envC3).exit = 2 ∧
    ∃ kR, (resultOf envC3).kRollback = some kR ∧
      powerOns (resultOf envC3).s.trace = restoreSelects envC3 (resultOf envC3).vms kR :=
  C3_theorem envC3 (resultOf envC3) rfl (by decide) (by decide)

/-! ## C4 -/

/-- C4: for every quiesced workload, if the parsed tools status is usable
(`toolsOk`/`toolsOld`, the code's spelling of ok/degraded), the graceful
shutdown request is the second command issued (right after the tools
query), and no forced power-off occupies either of the first two
positions — so any forced power-off strictly follows the graceful
attempt; if the tools status is anything else (unavailable/unknown,
including an absent `toolsStatus` line), the commands are exactly the
tools query followed by a forced power-off, with no graceful attempt. -/
theorem C4_theorem : ∀ (env : Nat → String) (k : Nat) (tr : List (Cmd × String))
    (v : String) (s' : S) (st : Option String),
    shutdownvm_onbox v ⟨env, k, tr⟩ = Except.ok s' →
    check_vmware_tools_status_parse (env k) = Except.ok st →
    ∃ Δ, s'.trace = tr ++ Δ ∧
      (toolsUsable st = true →
        (Δ.map Prod.fst).get? 1 = some (Cmd.powerShutdown v) ∧
        ∀ j, j ≤ 1 → (Δ.map Prod.fst).get? j ≠ some (Cmd.powerOff v)) ∧
      (toolsUsable st = false →
        Δ.map Prod.fst = [Cmd.getGuest v, Cmd.powerOff v]) := by
  intro env k tr v s' st h hst
  obtain ⟨st2, hst2, henv, hcase⟩ := shutdownvm_run v ⟨env, k, tr⟩ s' h
  simp only at hst2 henv
  rw [hst] at hst2
  injection hst2 with hst3
  subst hst3
  rcases hcase with ⟨hu, htr, _⟩ | ⟨hu, m, hm1, hm10, hpre, hcase2⟩
  · refine ⟨[(Cmd.getGuest v, env k), (Cmd.powerOff v, env (k + 1))],
      by simpa using htr, ?_, fun _ => rfl⟩
    intro hT
    rw [hT] at hu
    cases hu
  · rcases hcase2 with ⟨ps, hps, hne, htr, _⟩ | ⟨hm, hall, htr, _⟩
    · refine ⟨(Cmd.getGuest v, env k) :: (Cmd.powerShutdown v, env (k + 1)) ::
        (List.range m).map (fun i => (Cmd.getSummary v, env (k + 2 + i))),
        by simpa [List.append_assoc] using htr, ?_, ?_⟩
      · intro _
        refine ⟨rfl, ?_⟩
        intro j hj hc
        interval_cases j <;> simp at hc
      · intro hF
        rw [hF] at hu
        cases hu
    · refine ⟨(Cmd.getGuest v, env k) :: (Cmd.powerShutdown v, env (k + 1)) ::
        ((List.range 10).map (fun i => (Cmd.getSummary v, env (k + 2 + i))) ++
          [(Cmd.powerOff v, env (k + 12))]),
        by simpa [List.append_assoc] using htr, ?_, ?_⟩
      · intro _
        refine ⟨rfl, ?_⟩
        intro j hj hc
        interval_cases j <;> simp at hc
      · intro hF
        rw [hF] at hu
        cases hu

def envC4 : Nat → String
  | 0 => "toolsStatus = \"toolsOk\","
  | 2 => "powerState = \"poweredOff\","
  | _ => ""

/-- The final state of a quiesce of workload `"1"` at a concrete oracle. -/
def sRes (env : Nat → String) : S :=
  (shutdownvm_onbox "1" ⟨env, 0, []⟩).toOption.getD ⟨env, 0, []⟩

/-- Witness for C4 at the concrete oracle `envC4` (usable tools, graceful
shutdown confirmed by the first poll). -/
theorem C4_witness : ∃ Δ, (sRes envC4).trace = [] ++ Δ ∧
    (toolsUsable (some "toolsOk") = true →
      (Δ.map Prod.fst).get? 1 = some (Cmd.powerShutdown "1") ∧
      ∀ j, j ≤ 1 → (Δ.map Prod.fst).get? j ≠ some (Cmd.powerOff "1")) ∧
    (toolsUsable (some "toolsOk") = false →
      Δ.map Prod.fst = [Cmd.getGuest "1", Cmd.powerOff "1"]) :=
  C4_theorem envC4 0 [] "1" (sRes envC4) (some "toolsOk") rfl rfl

/-! ## C5 -/

lemma map_fst_polls (v : String) (f : Nat → String) (m : Nat) :
    ((List.range m).map (fun i => (Cmd.getSummary v, f i))).map Prod.fst =
      List.replicate m (Cmd.getSummary v) := by
  induction m with
  | zero => rfl
  | succ n ih =>
    rw [List.range_succ]
    simp only [List.map_append, List.map_cons, List.map_nil]
    rw [ih, ← List.replicate_succ']

/-- C5: when the graceful path runs (usable tools), the power state is
polled at most 10 times; every poll before the deciding one observed
`poweredOn`; the path succeeds as soon as any observation parses to
something other than `poweredOn` (including `unknown`), issuing no forced
power-off; and if all 10 polls observe `poweredOn`, the attempt budget is
exhausted and a forced power-off is issued as fallback. -/
theorem C5_theorem : ∀ (env : Nat → String) (k : Nat) (tr : List (Cmd × String))
    (v : String) (s' : S) (st : Option String),
    shutdownvm_onbox v ⟨env, k, tr⟩ = Except.ok s' →
    check_vmware_tools_status_parse (env k) = Except.ok st →
    toolsUsable st = true →
    ∃ m, 1 ≤ m ∧ m ≤ 10 ∧
      (∀ i, i + 1 < m → getvmpowerstate_parse (env (k + 2 + i)) = Except.ok "poweredOn") ∧
      ((∃ ps, getvmpowerstate_parse (env (k + 2 + (m - 1))) = Except.ok ps ∧
          ps ≠ "poweredOn" ∧
          s'.trace.map Prod.fst = tr.map Prod.fst ++
            [Cmd.getGuest v, Cmd.powerShutdown v] ++ List.replicate m (Cmd.getSummary v)) ∨
       (m = 10 ∧
          (∀ i, i < 10 → getvmpowerstate_parse (env (k + 2 + i)) = Except.ok "poweredOn") ∧
          s'.trace.map Prod.fst = tr.map Prod.fst ++
            [Cmd.getGuest v, Cmd.powerShutdown v] ++
            List.replicate 10 (Cmd.getSummary v) ++ [Cmd.powerOff v])) := by
  intro env k tr v s' st h hst hT
  obtain ⟨st2, hst2, henv, hcase⟩ := shutdownvm_run v ⟨env, k, tr⟩ s' h
  simp only at hst2 henv
  rw [hst] at hst2
  injection hst2 with hst3
  subst hst3
  rcases hcase with ⟨hu, _, _⟩ | ⟨_, m, hm1, hm10, hpre, hcase2⟩
  · rw [hT] at hu
    cases hu
  · refine ⟨m, hm1, hm10, hpre, ?_⟩
    rcases hcase2 with ⟨ps, hps, hne, htr, _⟩ | ⟨hm, hall, htr, _⟩
    · left
      refine ⟨ps, hps, hne, ?_⟩
      rw [htr]
      simp only [List.map_append, List.map_cons, List.map_nil, map_fst_polls]
    · right
      subst hm
      refine ⟨rfl, hall, ?_⟩
      rw [htr]
      simp only [List.map_append, List.map_cons, List.map_nil, map_fst_polls]

def envC5 : Nat → String
  | 0 => "toolsStatus = \"toolsOk\","
  | 1 => ""
  | n => if n ≤ 11 then "powerState = \"poweredOn\"," else ""

/-- Witness for C5 at the concrete oracle `envC5` (all ten polls observe
`poweredOn`, so the budget is exhausted and the forced power-off
fallback fires). -/
theorem C5_witness : ∃ m, 1 ≤ m ∧ m ≤ 10 ∧
    (∀ i, i + 1 < m → getvmpowerstate_parse (envC5 (0 + 2 + i)) = Except.ok "poweredOn") ∧
    ((∃ ps, getvmpowerstate_parse (envC5 (0 + 2 + (m - 1))) = Except.ok ps ∧
        ps ≠ "poweredOn" ∧
        (sRes envC5).trace.map Prod.fst = ([] : List (Cmd × String)).map Prod.fst ++
          [Cmd.getGuest "1", Cmd.powerShutdown "1"] ++ List.replicate m (Cmd.getSummary "1")) ∨
     (m = 10 ∧
        (∀ i, i < 10 → getvmpowerstate_parse (envC5 (0 + 2 + i)) = Except.ok "poweredOn") ∧
        (sRes envC5).trace.map Prod.fst = ([] : List (Cmd × String)).map Prod.fst ++
          [Cmd.getGuest "1", Cmd.powerShutdown "1"] ++
          List.replicate 10 (Cmd.getSummary "1") ++ [Cmd.powerOff "1"])) :=
  C5_theorem envC5 0 [] "1" (sRes envC5) (some "toolsOk") rfl rfl (by decide)

/-! ## C6 -/

/-- C6: a timeout while polling for `disabled` during maintenance-mode
exit is never fatal.  Whenever the maintenance-mode disable command was
issued — with no assumption whatsoever on the exit-poll responses, so in
particular when every poll fails — the orchestrator still proceeds to the
subsequent step: the reboot command on the success path (exit status 0),
or the rollback power-on loop on the failure path (exit status 3). -/
theorem C6_theorem : ∀ (env : Nat → String) (r : MainResult),
    main_v4 (S.init env) = Except.ok r →
    hasKind r.s.trace CmdKind.mmDisable = true →
    ((r.exit = 0 ∧ hasKind r.s.trace CmdKind.reboot = true) ∨
     (r.exit = 3 ∧ ∃ kR, r.kRollback = some kR ∧
        powerOns r.s.trace = restoreSelects env r.vms kR)) := by
  intro env r h hmd
  rcases main_shape env r h with ⟨hnf, hr⟩ | ⟨hf, hcore⟩
  · subst hr
    simp [hasKind, Cmd.kind] at hmd
  · obtain ⟨henv, hvms, Δq, Δm, hkq, hautq, hscanq, hkm, hpath⟩ :=
      mainCore_shape _ _ _ r hcore
    rcases hpath with ⟨hex, _, kR, ΔR, hkRb, hkr, hpowR, _, htr⟩ |
      ⟨_, out2, Δe, orb, hex0, _, hmark, hke, hkd, htr⟩ |
      ⟨_, out2, Δe, kR, ΔR, hex3, hkRb, hmark, hke, hkd, hkr, hpowR, _, htr⟩
    · exfalso
      have e1 : hasKind Δq CmdKind.mmDisable = false := hasKind_eq_false hkq (by simp)
      have e2 : hasKind Δm CmdKind.mmDisable = false := hasKind_eq_false hkm (by simp)
      have e3 : hasKind ΔR CmdKind.mmDisable = false := hasKind_eq_false hkr (by simp)
      rw [htr] at hmd
      simp only [hasKind_append, e1, e2, e3, hasKind_headTrace_mmDisable] at hmd
      simp at hmd
    · left
      refine ⟨hex0, ?_⟩
      rw [htr]
      simp only [hasKind_append, hasKind_single_reboot]
      simp
    · right
      refine ⟨hex3, kR, hkRb, ?_⟩
      rw [htr]
      simp only [powerOns_append]
      rw [powerOns_eq_nil hkq (by simp), powerOns_eq_nil hkm (by simp),
        powerOns_eq_nil hke (by simp), hpowR, hvms]
      rfl

/-- Witness for C6 at the concrete oracle `envC6`: all five
maintenance-mode exit polls time out, yet the reboot command is still
issued and the run ends with exit status 0. -/
theorem C6_witness :
    ((resultOf envC6).exit = 0 ∧ hasKind (resultOf envC6).s.trace CmdKind.reboot = true) ∨
    ((resultOf envC6).exit = 3 ∧ ∃ kR, (resultOf envC6).kRollback = some kR ∧
       powerOns (resultOf envC6).s.trace = restoreSelects envC6 (resultOf envC6).vms kR) :=
  C6_theorem envC6 (resultOf envC6) rfl (by decide)

/-! ## C7 -/

def envC7 : Nat → String := fun _ => ""

/-- The claim of C7: the fact extractors are total with explicit
not-found results (`none` for tools status, `"unknown"` for power state),
and every caller treats such a result conservatively, never as a
successful value — in particular the graceful-shutdown poll would never
accept an `unknown` read as its success observation. -/
def C7_claim : Prop :=
  (∀ out, (∀ l ∈ pySplitlines out, pyContains l "toolsStatus" = false) →
    check_vmware_tools_status_parse out = Except.ok none) ∧
  (∀ out, (∀ l ∈ pySplit '\n' out, pyContains l "powerState" = false) →
    getvmpowerstate_parse out = Except.ok "unknown") ∧
  (∀ (env : Nat → String) (k : Nat) (tr : List (Cmd × String)) (v : String) (s' : S),
    shutdownvm_onbox v ⟨env, k, tr⟩ = Except.ok s' →
    check_vmware_tools_status_parse (env k) = Except.ok none →
    s'.trace.map Prod.fst = tr.map Prod.fst ++ [Cmd.getGuest v, Cmd.powerOff v]) ∧
  (∀ (env : Nat → String) (k : Nat) (tr : List (Cmd × String)) (v : String) (s' : S),
    graceful_shutdown_onbox v ⟨env, k, tr⟩ = Except.ok (true, s') →
    ∃ m, 1 ≤ m ∧ ∃ ps, getvmpowerstate_parse (env (k + 1 + (m - 1))) = Except.ok ps ∧
      ps ≠ "poweredOn" ∧ ps ≠ "unknown")

/-- C7 is false on the code in its last conjunct: at the all-empty oracle
`envC7` every power-state read parses to the `"unknown"` fallback, yet the
graceful-shutdown poll reports success on its first read — the not-found
result is treated as a successful shutdown observation. -/
theorem C7_counterexample : ¬ C7_claim := by
  intro hcl
  obtain ⟨m, hm, ps, hps, hon, hunk⟩ := hcl.2.2.2 envC7 0 [] "1"
    ⟨envC7, 2, [(Cmd.powerShutdown "1", ""), (Cmd.getSummary "1", "")]⟩ rfl
  rw [show envC7 (0 + 1 + (m - 1)) = "" from rfl] at hps
  rw [show getvmpowerstate_parse "" = Except.ok "unknown" from rfl] at hps
  injection hps with hps2
  exact hunk hps2.symm

/-- C7 (amended): the fact extractors are total with explicit not-found
results (`none` / `"unknown"`); the tools-status caller treats `none`
conservatively (immediate forced power-off, no graceful attempt); but the
graceful-shutdown poll treats the `"unknown"` fallback like any other
non-`poweredOn` observation and reports a successful shutdown on it. -/
theorem C7_theorem :
    (∀ out, (∀ l ∈ pySplitlines out, pyContains l "toolsStatus" = false) →
      check_vmware_tools_status_parse out = Except.ok none) ∧
    (∀ out, (∀ l ∈ pySplit '\n' out, pyContains l "powerState" = false) →
      getvmpowerstate_parse out = Except.ok "unknown") ∧
    (∀ (env : Nat → String) (k : Nat) (tr : List (Cmd × String)) (v : String) (s' : S),
      shutdownvm_onbox v ⟨env, k, tr⟩ = Except.ok s' →
      check_vmware_tools_status_parse (env k) = Except.ok none →
      s'.trace.map Prod.fst = tr.map Prod.fst ++ [Cmd.getGuest v, Cmd.powerOff v]) ∧
    (∀ (env : Nat → String) (k : Nat) (tr : List (Cmd × String)) (v : String),
      getvmpowerstate_parse (env (k + 1)) = Except.ok "unknown" →
      ∃ s', graceful_shutdown_onbox v ⟨env, k, tr⟩ = Except.ok (true, s')) := by
  refine ⟨?_, ?_, ?_, ?_⟩
  · intro out hall
    have hf : (pySplitlines out).find? (fun l => pyContains l "toolsStatus") = none :=
      List.find?_eq_none.mpr (fun x hx => by rw [hall x hx]; simp)
    simp [check_vmware_tools_status_parse, hf]
  · intro out hall
    have hf : (pySplit '\n' out).find? (fun l => pyContains l "powerState") = none :=
      List.find?_eq_none.mpr (fun x hx => by rw [hall x hx]; simp)
    simp [getvmpowerstate_parse, hf]
  · intro env k tr v s' h hnone
    obtain ⟨st2, hst2, henv, hcase⟩ := shutdownvm_run v ⟨env, k, tr⟩ s' h
    simp only at hst2 henv
    rw [hnone] at hst2
    injection hst2 with hst3
    subst hst3
    rcases hcase with ⟨_, htr, _⟩ | ⟨hu, _⟩
    · rw [htr]
      simp
    · cases hu
  · intro env k tr v hu
    refine ⟨⟨env, k + 1 + 1,
      (tr ++ [(Cmd.powerShutdown v, env k)]) ++ [(Cmd.getSummary v, env (k + 1))]⟩, ?_⟩
    have h10 : SHUTDOWN_TIMEOUT_PER_VM = 9 + 1 := rfl
    simp only [graceful_shutdown_onbox, sendcommand_onbox, h10]
    simp only [graceful_poll, getvmpowerstate_onbox, sendcommand_onbox]
    rw [hu]
    simp only [Except.map]
    rw [if_neg (by decide)]

/-- Witness for the amended C7: the extractor's not-found result on empty
output, and the graceful poll accepting the `"unknown"` read at the
all-empty oracle `envC7`. -/
theorem C7_witness :
    check_vmware_tools_status_parse "" = Except.ok none ∧
    ∃ s', graceful_shutdown_onbox "1" ⟨envC7, 0, []⟩ = Except.ok (true, s') :=
  ⟨C7_theorem.1 "" (by decide), C7_theorem.2.2.2 envC7 0 [] "1" rfl⟩

/-! ## C8 -/

/-- C8: the auto-start priority values registered during a run are exactly
`1, 2, …` paired with the restore set in discovery order — a strictly
increasing sequence matching discovery order — and every quiesce (whose
first command is the tools-status query) is immediately preceded in the
trace by the auto-start registration of that same workload, so
registration always precedes the quiesce. -/
theorem C8_theorem : ∀ (env : Nat → String) (r : MainResult),
    main_v4 (S.init env) = Except.ok r →
    autosOf r.s.trace = r.restore.zip (List.range' 1 r.restore.length) ∧
    autostartBeforeQuiesce r.s.trace = true := by
  intro env r h
  rcases main_shape env r h with ⟨hnf, hr⟩ | ⟨hf, hcore⟩
  · subst hr
    exact ⟨rfl, rfl⟩
  · obtain ⟨henv, hvms, Δq, Δm, hkq, hautq, hscanq, hkm, hpath⟩ :=
      mainCore_shape _ _ _ r hcore
    have hregq : ∀ p, scanPrev registeredBefore p Δq = true := hscanq
    have hregm : ∀ p, scanPrev registeredBefore p Δm = true :=
      registeredBefore_of_kinds hkm (by simp)
    rcases hpath with ⟨hex, _, kR, ΔR, hkRb, hkr, hpowR, _, htr⟩ |
      ⟨_, out2, Δe, orb, hex0, _, hmark, hke, hkd, htr⟩ |
      ⟨_, out2, Δe, kR, ΔR, hex3, hkRb, hmark, hke, hkd, hkr, hpowR, _, htr⟩
    · constructor
      · rw [htr]
        simp only [autosOf_append]
        rw [autosOf_eq_nil hkm (by simp), autosOf_eq_nil hkr (by simp),
          autosOf_headTrace, hautq]
        simp
      · rw [autostartBeforeQuiesce, htr]
        exact scanPrev_append_all _ (scanPrev_append_all _
          (scanPrev_append_all _ (scanPrev_reg_head env) hregq) hregm)
          (registeredBefore_of_kinds hkr (by simp)) none
    · constructor
      · rw [htr]
        simp only [autosOf_append]
        rw [autosOf_eq_nil hkm (by simp), autosOf_eq_nil hke (by simp),
          autosOf_headTrace, hautq]
        simp [autosOf]
      · rw [autostartBeforeQuiesce, htr]
        exact scanPrev_append_all _ (scanPrev_append_all _ (scanPrev_append_all _
          (scanPrev_append_all _ (scanPrev_append_all _ (scanPrev_reg_head env) hregq) hregm)
          (scanPrev_reg_single_profile _ out2))
          (registeredBefore_of_kinds hke (by simp))) (scanPrev_reg_single_reboot orb) none
    · constructor
      · rw [htr]
        simp only [autosOf_append]
        rw [autosOf_eq_nil hkm (by simp), autosOf_eq_nil hke (by simp),
          autosOf_eq_nil hkr (by simp), autosOf_headTrace, hautq]
        simp [autosOf]
      · rw [autostartBeforeQuiesce, htr]
        exact scanPrev_append_all _ (scanPrev_append_all _ (scanPrev_append_all _
          (scanPrev_append_all _ (scanPrev_append_all _ (scanPrev_reg_head env) hregq) hregm)
          (scanPrev_reg_single_profile _ out2))
          (registeredBefore_of_kinds hke (by simp)))
          (registeredBefore_of_kinds hkr (by simp)) none

/-- Witness for C8 at the concrete oracle `envC2`, whose run registers its
single restore-set workload with priority 1 before quiescing it. -/
theorem C8_witness :
    autosOf (resultOf envC2).s.trace =
      (resultOf envC2).restore.zip (List.range' 1 (resultOf envC2).restore.length) ∧
    autostartBeforeQuiesce (resultOf envC2).s.trace = true :=
  C8_theorem envC2 (resultOf envC2) rfl

/-! ## C9 -/

def envAll : Nat → String := fun _ => ""

lemma legacyMain_eq (env : Nat → String) :
    legacyMain (S.init env) =
      (if pyContains (env 1) LEGACY_UPGRADE_FILENAME = true then
        legacyCore (pyStripQ (pyRstripQ (String.singleton QUOTE ++ pyStripRight (env 0) ++
          "/" ++ String.singleton QUOTE)) ++ LEGACY_UPGRADE_FILENAME)
          ⟨env, 2, [(Cmd.pwd, env 0),
            (Cmd.ls (String.singleton QUOTE ++ pyStripRight (env 0) ++ "/" ++
              String.singleton QUOTE), env 1)]⟩
      else
        Except.ok (0, ⟨env, 2, [(Cmd.pwd, env 0),
          (Cmd.ls (String.singleton QUOTE ++ pyStripRight (env 0) ++ "/" ++
            String.singleton QUOTE), env 1)]⟩)) := rfl

/-- The claim of C9: in both scripts, a missing upgrade package makes the
run terminate with exit status 1 after issuing only the directory
inspection commands. -/
def C9_claim : Prop :=
  (∀ env : Nat → String, pyContains (env 1) UPGRADE_FILENAME = false →
    main_v4 (S.init env) = Except.ok ⟨1, [], [], none,
      ⟨env, 2, [(Cmd.pwd, env 0), (Cmd.ls (pyStrip (env 0)), env 1)]⟩⟩) ∧
  (∀ env : Nat → String, pyContains (env 1) LEGACY_UPGRADE_FILENAME = false →
    ∃ s2 : S, legacyMain (S.init env) = Except.ok (1, s2))

/-- C9 is false on the code for the legacy script: with the all-empty
oracle `envAll` the package is missing, and `upgrade-script.py` calls
`exit(0)` — terminating with exit status 0, not 1. -/
theorem C9_counterexample : ¬ C9_claim := by
  intro hcl
  obtain ⟨s2, hleg⟩ := hcl.2 envAll (by decide)
  have h0 : legacyMain (S.init envAll) = Except.ok ((0 : Nat), ⟨envAll, 2,
      [(Cmd.pwd, envAll 0),
        (Cmd.ls (String.singleton QUOTE ++ pyStripRight (envAll 0) ++ "/" ++
          String.singleton QUOTE), envAll 1)]⟩) := by
    rw [legacyMain_eq envAll, if_neg (by decide)]
  rw [h0] at hleg
  injection hleg with h3
  have h4 : (0 : Nat) = 1 := congrArg Prod.fst h3
  exact absurd h4 (by decide)

/-- C9 (amended): when the configured package filename is absent from the
directory listing, both scripts terminate before issuing any
workload-shutdown, maintenance-mode, upgrade or reboot command (the trace
holds only the `pwd` and `ls` inspection commands) — but the exit status
is 1 only in `esxi_onbox_upgrade_v4.py`; the legacy `upgrade-script.py`
terminates with exit status 0. -/
theorem C9_theorem :
    (∀ env : Nat → String, pyContains (env 1) UPGRADE_FILENAME = false →
      main_v4 (S.init env) = Except.ok ⟨1, [], [], none,
        ⟨env, 2, [(Cmd.pwd, env 0), (Cmd.ls (pyStrip (env 0)), env 1)]⟩⟩) ∧
    (∀ env : Nat → String, pyContains (env 1) LEGACY_UPGRADE_FILENAME = false →
      legacyMain (S.init env) = Except.ok (0, ⟨env, 2,
        [(Cmd.pwd, env 0),
          (Cmd.ls (String.singleton QUOTE ++ pyStripRight (env 0) ++ "/" ++
            String.singleton QUOTE), env 1)]⟩)) := by
  constructor
  · intro env hmiss
    rw [main_v4_eq env, hmiss, if_neg (by simp)]
  · intro env hmiss
    rw [legacyMain_eq env, hmiss, if_neg (by simp)]

/-- Witness for the amended C9 at the all-empty oracle `envAll`: the v4
script exits with status 1 and the legacy script with status 0, both
right after the two inspection commands. -/
theorem C9_witness :
    main_v4 (S.init envAll) = Except.ok ⟨1, [], [], none,
      ⟨envAll, 2, [(Cmd.pwd, envAll 0), (Cmd.ls (pyStrip (envAll 0)), envAll 1)]⟩⟩ ∧
    legacyMain (S.init envAll) = Except.ok (0, ⟨envAll, 2,
      [(Cmd.pwd, envAll 0),
        (Cmd.ls (String.singleton QUOTE ++ pyStripRight (envAll 0) ++ "/" ++
          String.singleton QUOTE), envAll 1)]⟩) :=
  ⟨C9_theorem.1 envAll (by decide), C9_theorem.2 envAll (by decide)⟩
